import Mathlib

/-!
Shallow embedding of the virtual file system (src/virtualStorage.c and
src/virtualFileSystem.c) and verification of its specification claims.

Modelling conventions:
* The backing host file is represented structurally as a list of blocks,
  each holding its 5-byte header (`in_use`, `prev`, `next`) and its
  `block_size`-byte payload.  The C code addresses the host file through
  `lseek`/`read`/`write`; in every code path exercised here the host file
  offset is determined by `current_block_index_` and
  `current_block_position_`, so payload I/O is modelled as reading and
  writing the current block's payload at the current in-block position,
  and header I/O as reading and writing the addressed block's header.
* `size_t` quantities (lengths, cursors, counters) are modelled as `Nat`.
  In every execution they stay far below `2^64`; where unsigned wrap-around
  is actually observable on the executed paths (the position updates fed by
  a signed `off_t` in `storage_seek_in_region`) it is modelled explicitly
  with arithmetic modulo `2^64`.  `off_t` and `int` values are `Int`.
* Bytes are `Nat`s; multi-byte values are serialised little-endian, exactly
  as the x86 C build lays them out in block payloads.
* `while (true)` loops carry an explicit fuel argument bounding the number
  of iterations; the fuel is chosen larger than any iteration count
  reachable in the states considered, so the fuel-exhaustion branch is dead
  in all verified executions.
-/

set_option linter.unusedVariables false
set_option maxRecDepth 100000

namespace VFS

/-! ## Basic constants and byte-level helpers -/

/-- INVALID_REGION / INVALID_BLOCK sentinel (0xFFFF). -/
def INVALID_REGION : Nat := 65535

def DEFAULT_BLOCK_SIZE : Nat := 10
def DEFAULT_BLOCK_COUNT : Nat := 128

/-- 2^64, the modulus of `size_t` arithmetic. -/
def USIZE : Int := 2 ^ 64

/-- Adding a signed `off_t` value to a `size_t` variable: the C computation
happens in unsigned 64-bit arithmetic. -/
def usizeAddInt (a : Nat) (b : Int) : Nat := (((a : Int) + b) % USIZE).toNat

/-- Conversion of an unsigned 64-bit computation result to `off_t`
(two's complement). -/
def wrap64 (x : Int) : Int := (x + 2 ^ 63) % 2 ^ 64 - 2 ^ 63

/-- Little-endian bytes of a 16-bit value (`block_index` / `storage_region`). -/
def u16Bytes (x : Nat) : List Nat := [x % 256, x / 256 % 256]

/-- Little-endian bytes of a 64-bit value (`size_t`, e.g. a file length). -/
def u64Bytes (x : Nat) : List Nat :=
  [x % 256, x / 256 % 256, x / 256 ^ 2 % 256, x / 256 ^ 3 % 256,
   x / 256 ^ 4 % 256, x / 256 ^ 5 % 256, x / 256 ^ 6 % 256, x / 256 ^ 7 % 256]

/-- Little-endian decoding of a byte list. -/
def bytesToNatLE (l : List Nat) : Nat := l.foldr (fun b acc => b + 256 * acc) 0

/-- Truncate a byte list at the first NUL, as C string functions see it. -/
def cstrTrunc : List Nat → List Nat
  | [] => []
  | b :: rest => if b = 0 then [] else b :: cstrTrunc rest

/-- `strcmp(a, b) == 0` on the NUL-terminated views of the two byte lists. -/
def cstrEq (a b : List Nat) : Bool := cstrTrunc a == cstrTrunc b

/-- Overwrite `data.length` bytes of `l` starting at `pos` (the effect of a
`write` into a payload at in-block offset `pos`). -/
def overwriteAt (l : List Nat) (pos : Nat) (data : List Nat) : List Nat :=
  l.take pos ++ data ++ l.drop (pos + data.length)

/-! ## Storage engine state (virtualStorage.c) -/

/-- The 5-byte block header: `in_use`, `previous_block`, `next_block`. -/
structure block_info where
  in_use : Bool
  previous_block : Nat
  next_block : Nat
deriving Repr, DecidableEq, Inhabited

/-- One block of the backing file: header plus `block_size` payload bytes. -/
structure BlockData where
  header : block_info
  payload : List Nat
deriving Repr, DecidableEq, Inhabited

/-- Default used for out-of-range block reads (the C code never reads an
out-of-range block on the paths considered: `jump_to_block` guards the
index). -/
def blockDefault : BlockData := ⟨⟨false, INVALID_REGION, INVALID_REGION⟩, []⟩

/-- The process-wide state of the storage engine: the backing file content
(as blocks) plus the cursor globals `current_block_index_`,
`current_block_position_`, `current_region_position_` and the cached header
`current_block_`. -/
structure StorageState where
  initialized : Bool
  active_block_size : Nat
  active_block_count : Nat
  blocks : List BlockData
  current_block_index : Nat
  current_block_position : Nat
  current_region_position : Nat
  current_block : block_info
deriving Repr, DecidableEq

def getBlockL (blocks : List BlockData) (i : Nat) : BlockData := blocks.getD i blockDefault

def getBlock (s : StorageState) (i : Nat) : BlockData := getBlockL s.blocks i

def setBlock (s : StorageState) (i : Nat) (b : BlockData) : StorageState :=
  { s with blocks := s.blocks.set i b }

/-- `jump_to_block`: position the cursor at a block's payload start and read
its header (`read_block_header`).  A no-op when the index is out of range,
exactly as in the C code. -/
def jump_to_block (s : StorageState) (block : Nat) : StorageState :=
  if s.active_block_count ≤ block then s
  else
    { s with current_block_index := block
           , current_block := (getBlock s block).header
           , current_block_position := 0 }

/-- The scan loop of `allocate_block`; the fuel equals the remaining number
of loop iterations (`active_block_count - inspected_block_index`). -/
def allocate_block_loop (s : StorageState) (previous_block : Nat) (i : Nat) :
    Nat → Nat × StorageState
  | 0 => (INVALID_REGION, s)
  | fuel+1 =>
    if i < s.active_block_count then
      let s := jump_to_block s i
      if !s.current_block.in_use then
        -- Set header data of new block (the in-memory cached header is not
        -- refreshed by the C code here)
        let b := getBlock s i
        (i, setBlock s i
              { b with header := ⟨true, previous_block, INVALID_REGION⟩ })
      else allocate_block_loop s previous_block (i + 1) fuel
    else (INVALID_REGION, s)

/-- `allocate_block`: linear scan from block 0 for the first free block. -/
def allocate_block (s : StorageState) (previous_block : Nat) : Nat × StorageState :=
  allocate_block_loop s previous_block 0 s.active_block_count

/-- `storage_allocate_region`. -/
def storage_allocate_region (s : StorageState) : Nat × StorageState :=
  if !s.initialized then (INVALID_REGION, s)
  else allocate_block s INVALID_REGION

/-- The chain walk of `storage_free_region`.  Each iteration reads the next
link, then rewrites the current block's header as free. -/
def free_region_loop (s : StorageState) (next_block : Nat) : Nat → StorageState
  | 0 => s
  | fuel+1 =>
    if next_block = INVALID_REGION then s
    else
      let s := jump_to_block s next_block
      let nb := s.current_block.next_block
      let b := getBlock s next_block
      let s := setBlock s next_block
                 { b with header := ⟨false, INVALID_REGION, INVALID_REGION⟩ }
      free_region_loop s nb fuel

/-- `storage_free_region`: mark every block of the chain as unused; payload
bytes are left intact. -/
def storage_free_region (s : StorageState) (region : Nat) : Int × StorageState :=
  if !s.initialized then (-1, s)
  else (0, free_region_loop s region (s.active_block_count + 1))

/-- `storage_jump_to_region`. -/
def storage_jump_to_region (s : StorageState) (region : Nat) : Int × StorageState :=
  if !s.initialized then (-1, s)
  else
    let s := jump_to_block s region
    (0, { s with current_region_position := 0 })

/-- The loop of `storage_read_in_region`; `acc` is the caller's buffer filled
so far (`read_bytes = acc.length`).  On the early return (chain exhausted)
the C code leaves `current_block_position_` / `current_region_position_`
unchanged, which is mirrored here. -/
def storage_read_loop (s : StorageState) (n_bytes : Nat) (acc : List Nat) :
    Nat → List Nat × Nat × StorageState
  | 0 => (acc, acc.length, s)
  | fuel+1 =>
    if s.active_block_size ≤ s.current_block_position + n_bytes - acc.length then
      let bytes_to_read := s.active_block_size - s.current_block_position
      let acc := acc ++
        ((getBlock s s.current_block_index).payload.drop s.current_block_position).take
          bytes_to_read
      if s.current_block.next_block = INVALID_REGION then (acc, acc.length, s)
      else storage_read_loop (jump_to_block s s.current_block.next_block) n_bytes acc fuel
    else
      let k := n_bytes - acc.length
      let acc := acc ++
        ((getBlock s s.current_block_index).payload.drop s.current_block_position).take k
      (acc, n_bytes,
       { s with current_block_position := s.current_block_position + k
              , current_region_position := s.current_region_position + n_bytes })

/-- `storage_read_in_region`: returns the bytes delivered into the buffer,
the returned count, and the new state. -/
def storage_read_in_region (s : StorageState) (n_bytes : Nat) :
    List Nat × Nat × StorageState :=
  if !s.initialized then ([], 0, s)
  else storage_read_loop s n_bytes [] (s.active_block_count + 1)

/-- The loop of `storage_write_in_region`.  `written` counts the bytes
already written from `buffer`. -/
def storage_write_loop (s : StorageState) (buffer : List Nat) (written : Nat) :
    Nat → Nat × StorageState
  | 0 => (written, s)
  | fuel+1 =>
    if s.active_block_size ≤ s.current_block_position + buffer.length - written then
      let bytes_to_write := s.active_block_size - s.current_block_position
      let b := getBlockL s.blocks s.current_block_index
      let s := setBlock s s.current_block_index
        { b with payload := overwriteAt b.payload s.current_block_position
                              ((buffer.drop written).take bytes_to_write) }
      let written := written + bytes_to_write
      if s.current_block.next_block ≠ INVALID_REGION then
        storage_write_loop (jump_to_block s s.current_block.next_block) buffer written fuel
      else
        -- If there is no next block, allocate a new one
        let current_block := s.current_block_index
        let ar := allocate_block s current_block
        let new_block := ar.1
        let s := ar.2
        if new_block = INVALID_REGION then
          -- Failed to allocate block: out of storage space. Stop writing
          (written, s)
        else
          let s := jump_to_block s current_block
          -- Update the current block's header to point to the new block
          let b := getBlockL s.blocks current_block
          let s := setBlock s current_block
            { b with header := { b.header with next_block := new_block } }
          storage_write_loop (jump_to_block s new_block) buffer written fuel
    else
      let k := buffer.length - written
      let b := getBlockL s.blocks s.current_block_index
      let s := setBlock s s.current_block_index
        { b with payload := overwriteAt b.payload s.current_block_position
                              ((buffer.drop written).take k) }
      (buffer.length,
       { s with current_block_position := s.current_block_position + k
              , current_region_position := s.current_region_position + buffer.length })

/-- `storage_write_in_region` with `n_bytes = buffer.length`: returns the
count of bytes written (short when block allocation fails) and the state. -/
def storage_write_in_region (s : StorageState) (buffer : List Nat) :
    Nat × StorageState :=
  if !s.initialized then (0, s)
  else storage_write_loop s buffer 0 (s.active_block_count + 1)

/-- The forward-walk loop of `storage_seek_in_region` for positive offsets;
returns the final `sought_bytes` and the state at loop exit. -/
def seek_forward_loop (s : StorageState) (offset : Int) (sought : Int) :
    Nat → Int × StorageState
  | 0 => (sought, s)
  | fuel+1 =>
    if (s.active_block_size : Int) ≤ (s.current_block_position : Int) + offset - sought then
      let sought := sought + ((s.active_block_size : Int) - (s.current_block_position : Int))
      seek_forward_loop (jump_to_block s s.current_block.next_block) offset sought fuel
    else (sought, s)

/-- `storage_seek_in_region`.  For negative offsets, the C guard
`current_block_position_ + offset - sought_bytes < 0` compares a value of
unsigned type (`size_t + off_t` promotes to unsigned 64-bit), so it is
always false: the backward block-walk is dead code and `sought_bytes`
stays 0; only the unsigned position updates happen. -/
def storage_seek_in_region (s : StorageState) (offset : Int) : Nat × StorageState :=
  if !s.initialized then (s.current_region_position, s)
  else
    let s :=
      if 0 < offset then
        let r := seek_forward_loop s offset 0 (offset.toNat + 1)
        let sought := r.1
        let s := r.2
        { s with current_block_position :=
            usizeAddInt s.current_block_position (offset - sought) }
      else if offset < 0 then
        { s with current_block_position :=
            usizeAddInt s.current_block_position offset }
      else s
    let rp := usizeAddInt s.current_region_position offset
    (rp, { s with current_region_position := rp })

/-- The state produced by `create_storage_file` followed by
`storage_initialize`: block 0 allocated as the root directory region with a
zeroed payload, all other blocks free with zeroed payloads, cursor globals
at their C zero-initialised values. -/
def initialStorage (bs bc : Nat) : StorageState :=
  { initialized := true
  , active_block_size := bs
  , active_block_count := bc
  , blocks := ⟨⟨true, INVALID_REGION, INVALID_REGION⟩, List.replicate bs 0⟩ ::
      List.replicate (bc - 1) ⟨⟨false, INVALID_REGION, INVALID_REGION⟩, List.replicate bs 0⟩
  , current_block_index := 0
  , current_block_position := 0
  , current_region_position := 0
  , current_block := ⟨false, 0, 0⟩ }

/-! ## Chain observation functions (used only in theorem statements) -/

/-- The block indices of the chain starting at `i`, following `next` links
until `INVALID` (or until an out-of-range index or fuel exhaustion). -/
def chainBlocksFrom (blocks : List BlockData) (cnt : Nat) : Nat → Nat → List Nat
  | _, 0 => []
  | i, fuel+1 =>
    if cnt ≤ i then []
    else i :: chainBlocksFrom blocks cnt (getBlockL blocks i).header.next_block fuel

/-- The concatenated payload bytes of the chain starting at `i`. -/
def chainBytesFrom (blocks : List BlockData) (cnt : Nat) : Nat → Nat → List Nat
  | _, 0 => []
  | i, fuel+1 =>
    if cnt ≤ i then []
    else (getBlockL blocks i).payload ++
      chainBytesFrom blocks cnt (getBlockL blocks i).header.next_block fuel

/-! ## File-system layer state (virtualFileSystem.c) -/

def MAX_DESCRIPTORS : Nat := 256

-- <fcntl.h> flag values on the Linux build
def O_CREAT : Nat := 64
def O_EXCL : Nat := 128
def O_TRUNC : Nat := 512
def O_APPEND : Nat := 1024

def SEEK_SET : Int := 0
def SEEK_CUR : Int := 1
def SEEK_END : Int := 2

-- Directory entry type codes
def NULL_ENTRY : Nat := 0
def UNUSED_ENTRY : Nat := 1
def FILE_ENTRY : Nat := 2
def DIRECTORY_ENTRY : Nat := 3

def root_directory_region : Nat := 0

/-- An open-file handle `virtual_file`. -/
structure virtual_file where
  content_region : Nat
  metadata_region : Nat
  length : Nat
  reader_position : Nat
deriving Repr, DecidableEq, Inhabited

/-- The process-wide file-system layer state: the storage engine state, the
descriptor table `descriptors_` (modelled with 256 slots) and the
cursor-affinity cache `last_used_descriptor_`. -/
structure FSState where
  storage : StorageState
  descriptors : List (Option virtual_file)
  last_used_descriptor : Int
deriving Repr, DecidableEq

/-- The combined descriptor validity check
`fd < 0 || fd >= MAX_DESCRIPTORS || descriptors_[fd] == NULL`, returning the
handle when the descriptor is live. -/
def getDescriptor (fs : FSState) (fd : Int) : Option virtual_file :=
  if fd < 0 ∨ (MAX_DESCRIPTORS : Int) ≤ fd then none
  else fs.descriptors.getD fd.toNat none

def setDescriptor (fs : FSState) (fd : Int) (f : Option virtual_file) : FSState :=
  { fs with descriptors := fs.descriptors.set fd.toNat f }

/-- The failure value `{ INVALID_REGION, INVALID_REGION, 0, 0 }`. -/
def notFoundFile : virtual_file := ⟨INVALID_REGION, INVALID_REGION, 0, 0⟩

/-- `directory_navigation_result`; a `none` remainder corresponds to the
NULL pointer returned on navigation failure. -/
structure directory_navigation_result where
  remainder_path : Option (List Nat)
  directory_region : Nat
deriving Repr, DecidableEq

/-- Fuel bound for the directory-entry scan loops: a well-formed directory
region holds at most `block_count * block_size / 5` entries, so this bound
is never reached in the states considered. -/
def dirScanFuel (s : StorageState) : Nat := s.active_block_size * s.active_block_count + 1

/-- The inner entry-scan loop of `navigate_to_virtual_directory`: find a
DIRECTORY entry named `name` in the directory whose content region the
cursor is positioned in; on a match, jump into its content region.  Entry
bytes that a short read fails to deliver are modelled as 0 (the C local is
initialised to 0 for the type byte; the scans considered never read
short). -/
def navigate_scan (st : StorageState) (dir : Nat) (name : List Nat) :
    Nat → Option Nat × StorageState
  | 0 => (none, st)
  | fuel+1 =>
    let r1 := storage_read_in_region st 1
    let et := r1.1.headD 0
    let st := r1.2.2
    if et = NULL_ENTRY then (none, st)
    else if et ≠ DIRECTORY_ENTRY then
      navigate_scan ((storage_seek_in_region st 4).2) dir name fuel
    else
      let r2 := storage_read_in_region st 2
      let metadata_region := bytesToNatLE r2.1
      let r3 := storage_read_in_region r2.2.2 2
      let content_region := bytesToNatLE r3.1
      let r4 := storage_seek_in_region r3.2.2 0
      let next_entry_position := r4.1
      let st := (storage_jump_to_region r4.2 metadata_region).2
      let r5 := storage_read_in_region st 1
      let entry_name_length := r5.1.headD 0
      let r6 := storage_read_in_region r5.2.2 entry_name_length
      if cstrEq r6.1 name then
        (some content_region, (storage_jump_to_region r6.2.2 content_region).2)
      else
        let st := (storage_jump_to_region r6.2.2 dir).2
        navigate_scan (storage_seek_in_region st (next_entry_position : Int)).2 dir name fuel

/-- The character loop of `navigate_to_virtual_directory`; the fuel is
exactly `path.length - i`, so fuel 0 is the loop exit. -/
def navigate_pathloop (st : StorageState) (path : List Nat) (last_slash : Int)
    (dir : Nat) (i : Nat) : Nat → directory_navigation_result × StorageState
  | 0 =>
    -- Isolate the name of the file or last directory in the path
    let len : Int := (path.length : Int) - 1 - last_slash
    let remainder := (path.drop (last_slash + 1).toNat).take len.toNat
    (⟨some remainder, dir⟩, st)
  | fuel+1 =>
    if path.getD i 0 = 47 then
      let name_len : Int := (i : Int) - 1 - last_slash
      let directory_name := (path.drop (last_slash + 1).toNat).take name_len.toNat
      let r := navigate_scan st dir directory_name (dirScanFuel st)
      match r.1 with
      | none => (⟨none, INVALID_REGION⟩, r.2)
      | some content => navigate_pathloop r.2 path i content (i + 1) fuel
    else navigate_pathloop st path last_slash dir (i + 1) fuel

/-- `navigate_to_virtual_directory` (the lazy `storage_initialize` call is
not modelled: the verified states carry an initialised storage). -/
def navigate_to_virtual_directory (st : StorageState) (path : List Nat) :
    directory_navigation_result × StorageState :=
  let st := (storage_jump_to_region st root_directory_region).2
  navigate_pathloop st path (-1) root_directory_region 0 path.length

/-- The entry-scan loop of `find_virtual_file`. -/
def find_scan (st : StorageState) (dir : Nat) (name : List Nat) :
    Nat → virtual_file × StorageState
  | 0 => (notFoundFile, st)
  | fuel+1 =>
    let r1 := storage_read_in_region st 1
    let et := r1.1.headD 0
    let st := r1.2.2
    if et = NULL_ENTRY then (notFoundFile, st)
    else if et ≠ FILE_ENTRY then
      find_scan ((storage_seek_in_region st 4).2) dir name fuel
    else
      let r2 := storage_read_in_region st 2
      let metadata_region := bytesToNatLE r2.1
      let r3 := storage_read_in_region r2.2.2 2
      let content_region := bytesToNatLE r3.1
      let r4 := storage_seek_in_region r3.2.2 0
      let next_entry_position := r4.1
      let st := (storage_jump_to_region r4.2 metadata_region).2
      let r5 := storage_read_in_region st 8
      let file_length := bytesToNatLE r5.1
      let r6 := storage_read_in_region r5.2.2 1
      let file_name_length := r6.1.headD 0
      let r7 := storage_read_in_region r6.2.2 file_name_length
      if cstrEq r7.1 name then
        (⟨content_region, metadata_region, file_length, 0⟩, r7.2.2)
      else
        let st := (storage_jump_to_region r7.2.2 dir).2
        find_scan (storage_seek_in_region st (next_entry_position : Int)).2 dir name fuel

/-- `find_virtual_file`. -/
def find_virtual_file (st : StorageState) (path : List Nat) :
    virtual_file × StorageState :=
  let nav := navigate_to_virtual_directory st path
  if nav.1.directory_region = INVALID_REGION then (notFoundFile, nav.2)
  else find_scan nav.2 nav.1.directory_region (nav.1.remainder_path.getD []) (dirScanFuel nav.2)

/-- The shared scan for the first END/UNUSED entry slot used by
`create_virtual_file` and `mkdir_virtual` (the two C loops are
identical). -/
def create_scan (st : StorageState) : Nat → StorageState
  | 0 => st
  | fuel+1 =>
    let r1 := storage_read_in_region st 1
    let et := r1.1.headD 0
    let st := r1.2.2
    if et = NULL_ENTRY ∨ et = UNUSED_ENTRY then st
    else create_scan ((storage_seek_in_region st 4).2) fuel

/-- `create_virtual_file`.  `char remainder_path_length = strlen(...)`
truncates the name length to a byte; names of 128 bytes or more would make
the subsequent write count negative (undefined in C) and are not
exercised. -/
def create_virtual_file (st : StorageState) (path : List Nat) :
    virtual_file × StorageState :=
  let nav := navigate_to_virtual_directory st path
  if nav.1.directory_region = INVALID_REGION then (notFoundFile, nav.2)
  else
    let a1 := storage_allocate_region nav.2
    let content_region := a1.1
    if content_region = INVALID_REGION then (notFoundFile, a1.2)
    else
      let a2 := storage_allocate_region a1.2
      let metadata_region := a2.1
      if metadata_region = INVALID_REGION then
        (notFoundFile, (storage_free_region a2.2 content_region).2)
      else
        let st := (storage_jump_to_region a2.2 nav.1.directory_region).2
        let st := create_scan st (dirScanFuel st)
        let st := (storage_seek_in_region st (-1)).2
        let st := (storage_write_in_region st [FILE_ENTRY]).2
        let st := (storage_write_in_region st (u16Bytes metadata_region)).2
        let st := (storage_write_in_region st (u16Bytes content_region)).2
        let st := (storage_jump_to_region st metadata_region).2
        let name := nav.1.remainder_path.getD []
        let file_length := 0
        let remainder_path_length := name.length % 256
        let st := (storage_write_in_region st (u64Bytes file_length)).2
        let st := (storage_write_in_region st [remainder_path_length]).2
        let st := (storage_write_in_region st (name.take remainder_path_length)).2
        (⟨content_region, metadata_region, file_length, 0⟩, st)

/-- The first-free-slot scan over `descriptors_`. -/
def find_first_free (fs : FSState) : Int :=
  match (List.range MAX_DESCRIPTORS).find? (fun i => fs.descriptors.getD i none = none) with
  | some i => (i : Int)
  | none => -1

/-- The tail of `open_virtual` shared by the found-file and created-file
paths: store the handle, then handle O_TRUNC and O_APPEND.  The C code
stores the handle into the descriptor table first and afterwards mutates
only its local copy `file`: the O_TRUNC branch frees the old content region
and allocates a fresh one (updating `file.content_region` and `file.length`
locally only), and the O_APPEND branch sets `file.reader_position` locally
only; neither change reaches the stored descriptor. -/
def open_finish (fs : FSState) (fad : Int) (file : virtual_file) (flags : Nat) :
    Int × FSState :=
  let fs := setDescriptor fs fad (some file)
  let fs :=
    if flags &&& O_TRUNC ≠ 0 then
      let st := (storage_free_region fs.storage file.content_region).2
      let ar := storage_allocate_region st
      -- file.content_region := ar.1 and file.length := 0 happen on the
      -- local copy only
      { fs with storage := ar.2 }
    else fs
  -- O_APPEND: file.reader_position := file.length on the local copy only
  (fad, fs)

/-- `open_virtual`. -/
def open_virtual (fs : FSState) (path : List Nat) (flags : Nat) : Int × FSState :=
  let fad := find_first_free fs
  if fad = -1 then (-1, fs)
  else
    let fs := { fs with last_used_descriptor := -1 }   -- invalidate_last_descriptor
    let fr := find_virtual_file fs.storage path
    let file := fr.1
    let fs := { fs with storage := fr.2 }
    if file.content_region = INVALID_REGION then
      if flags &&& O_CREAT = 0 then (-1, fs)
      else
        let cr := create_virtual_file fs.storage path
        let fs := { fs with storage := cr.2 }
        if cr.1.content_region = INVALID_REGION then (-1, fs)
        else open_finish fs fad cr.1 flags
    else if flags &&& O_EXCL ≠ 0 then (-1, fs)
    else open_finish fs fad file flags

/-- `close_virtual`. -/
def close_virtual (fs : FSState) (fd : Int) : FSState :=
  match getDescriptor fs fd with
  | none => fs
  | some _ => setDescriptor fs fd none

/-- `jump_to_file_if_needed` (callers guarantee a live descriptor; the C
code dereferences it without a check). -/
def jump_to_file_if_needed (fs : FSState) (fd : Int) : FSState :=
  if fs.last_used_descriptor = fd then fs
  else
    match getDescriptor fs fd with
    | none => fs
    | some f =>
      let st := (storage_jump_to_region fs.storage f.content_region).2
      let st := (storage_seek_in_region st (f.reader_position : Int)).2
      { fs with storage := st, last_used_descriptor := fd }

/-- `read_virtual`: returns the bytes delivered into the buffer, the return
value, and the new state. -/
def read_virtual (fs : FSState) (fd : Int) (n_bytes : Nat) :
    List Nat × Nat × FSState :=
  match getDescriptor fs fd with
  | none => ([], 0, fs)
  | some f =>
    let fs := jump_to_file_if_needed fs fd
    let bytes_to_read :=
      if f.length < f.reader_position + n_bytes then f.length - f.reader_position
      else n_bytes
    let r := storage_read_in_region fs.storage bytes_to_read
    let fs := { fs with storage := r.2.2 }
    let fs := setDescriptor fs fd
      (some { f with reader_position := f.reader_position + bytes_to_read })
    (r.1, bytes_to_read, fs)

/-- `update_virtual_file_metadata`. -/
def update_virtual_file_metadata (fs : FSState) (metadata_region : Nat)
    (file_size : Nat) : FSState :=
  let st := (storage_jump_to_region fs.storage metadata_region).2
  let st := (storage_write_in_region st (u64Bytes file_size)).2
  { fs with storage := st, last_used_descriptor := -1 }

/-- `write_virtual` with `n_bytes = buffer.length`.  The count returned by
`storage_write_in_region` is discarded by the C code.  The cursor and
length updates (`reader_position += n_bytes`, `length = reader_position +
1`) are `size_t` arithmetic and wrap mod `2 ^ 64`. -/
def write_virtual (fs : FSState) (fd : Int) (buffer : List Nat) : Nat × FSState :=
  match getDescriptor fs fd with
  | none => (0, fs)
  | some f =>
    let fs := jump_to_file_if_needed fs fd
    let st := (storage_write_in_region fs.storage buffer).2
    let fs := { fs with storage := st }
    let f1 := { f with reader_position := (f.reader_position + buffer.length) % 2 ^ 64 }
    let fs := setDescriptor fs fd (some f1)
    if f.length ≤ f1.reader_position then
      let f2 := { f1 with length := (f1.reader_position + 1) % 2 ^ 64 }
      let fs := setDescriptor fs fd (some f2)
      (buffer.length, update_virtual_file_metadata fs f2.metadata_region f2.length)
    else (buffer.length, fs)

/-- `seek_virtual`.  The `size_t + off_t` additions of the SEEK_CUR and
SEEK_END cases happen in unsigned 64-bit arithmetic and are converted back
to `off_t`; `wrap64` models that conversion. -/
def seek_virtual (fs : FSState) (fd : Int) (offset : Int) (whence : Int) :
    Int × FSState :=
  match getDescriptor fs fd with
  | none => (-1, fs)
  | some f =>
    if whence = SEEK_SET ∨ whence = SEEK_CUR ∨ whence = SEEK_END then
      let new_position : Int :=
        if whence = SEEK_SET then offset
        else if whence = SEEK_CUR then wrap64 ((f.reader_position : Int) + offset)
        else wrap64 ((f.length : Int) + offset)
      -- Clamp new position
      let new_position :=
        if new_position < 0 then 0
        else if (f.length : Int) < new_position then (f.length : Int)
        else new_position
      (new_position,
       setDescriptor fs fd (some { f with reader_position := new_position.toNat }))
    else ((f.reader_position : Int), fs)

/-- The entry-scan loop of `mkdir_virtual` is `create_scan`; this is the
whole operation. -/
def mkdir_virtual (fs : FSState) (path : List Nat) : Int × FSState :=
  let fs := { fs with last_used_descriptor := -1 }   -- invalidate_last_descriptor
  let nav := navigate_to_virtual_directory fs.storage path
  if nav.1.directory_region = INVALID_REGION then (-1, { fs with storage := nav.2 })
  else
    let a1 := storage_allocate_region nav.2
    let content_region := a1.1
    if content_region = INVALID_REGION then (-1, { fs with storage := a1.2 })
    else
      let a2 := storage_allocate_region a1.2
      let metadata_region := a2.1
      if metadata_region = INVALID_REGION then
        (-1, { fs with storage := (storage_free_region a2.2 content_region).2 })
      else
        let st := (storage_jump_to_region a2.2 nav.1.directory_region).2
        let st := create_scan st (dirScanFuel st)
        let st := (storage_seek_in_region st (-1)).2
        let st := (storage_write_in_region st [DIRECTORY_ENTRY]).2
        let st := (storage_write_in_region st (u16Bytes metadata_region)).2
        let st := (storage_write_in_region st (u16Bytes content_region)).2
        let st := (storage_jump_to_region st metadata_region).2
        let name := nav.1.remainder_path.getD []
        let remainder_path_length := name.length % 256
        let st := (storage_write_in_region st [remainder_path_length]).2
        let st := (storage_write_in_region st (name.take remainder_path_length)).2
        (0, { fs with storage := st })

/-- The emptiness-check loop inside `rmdir_virtual`: every entry of the
directory being deleted must be END or UNUSED. -/
def rmdir_empty_check (st : StorageState) : Nat → Bool × StorageState
  | 0 => (false, st)
  | fuel+1 =>
    let r1 := storage_read_in_region st 1
    let et := r1.1.headD 0
    let st := r1.2.2
    if et = NULL_ENTRY then (true, st)
    else if et = UNUSED_ENTRY then
      rmdir_empty_check ((storage_seek_in_region st 4).2) fuel
    else (false, st)

/-- The entry-scan loop of `rmdir_virtual`.  On deleting, the C code jumps
to `root_directory_region_` (not to the containing directory) before
seeking to `entry_position` and writing the UNUSED mark. -/
def rmdir_scan (st : StorageState) (dir : Nat) (name : List Nat) :
    Nat → Int × StorageState
  | 0 => (-1, st)
  | fuel+1 =>
    let ep := storage_seek_in_region st 0
    let entry_position := ep.1
    let r1 := storage_read_in_region ep.2 1
    let et := r1.1.headD 0
    let st := r1.2.2
    if et = NULL_ENTRY then (-1, st)
    else if et ≠ DIRECTORY_ENTRY then
      rmdir_scan ((storage_seek_in_region st 4).2) dir name fuel
    else
      let r2 := storage_read_in_region st 2
      let metadata_region := bytesToNatLE r2.1
      let r3 := storage_read_in_region r2.2.2 2
      let content_region := bytesToNatLE r3.1
      let r4 := storage_seek_in_region r3.2.2 0
      let next_entry_position := r4.1
      let st := (storage_jump_to_region r4.2 metadata_region).2
      let r5 := storage_read_in_region st 1
      let directory_name_length := r5.1.headD 0
      let r6 := storage_read_in_region r5.2.2 directory_name_length
      if cstrEq r6.1 name then
        let st := (storage_jump_to_region r6.2.2 content_region).2
        let ec := rmdir_empty_check st (dirScanFuel st)
        if !ec.1 then (-1, ec.2)
        else
          -- Mark the table of contents entry as unused
          let st := (storage_jump_to_region ec.2 root_directory_region).2
          let st := (storage_seek_in_region st (entry_position : Int)).2
          let st := (storage_write_in_region st [UNUSED_ENTRY]).2
          -- Delete the regions used by this directory
          let st := (storage_free_region st content_region).2
          let st := (storage_free_region st metadata_region).2
          (0, st)
      else
        let st := (storage_jump_to_region r6.2.2 dir).2
        rmdir_scan (storage_seek_in_region st (next_entry_position : Int)).2 dir name fuel

/-- `rmdir_virtual`. -/
def rmdir_virtual (fs : FSState) (path : List Nat) : Int × FSState :=
  let fs := { fs with last_used_descriptor := -1 }
  let nav := navigate_to_virtual_directory fs.storage path
  if nav.1.directory_region = INVALID_REGION then (-1, { fs with storage := nav.2 })
  else
    let r := rmdir_scan nav.2 nav.1.directory_region (nav.1.remainder_path.getD [])
               (dirScanFuel nav.2)
    (r.1, { fs with storage := r.2 })

/-- The entry-scan loop of `unlink_virtual`; here the UNUSED mark is written
through `navigation_result.directory_region`. -/
def unlink_scan (st : StorageState) (dir : Nat) (name : List Nat) :
    Nat → Int × StorageState
  | 0 => (-1, st)
  | fuel+1 =>
    let ep := storage_seek_in_region st 0
    let entry_position := ep.1
    let r1 := storage_read_in_region ep.2 1
    let et := r1.1.headD 0
    let st := r1.2.2
    if et = NULL_ENTRY then (-1, st)
    else if et ≠ FILE_ENTRY then
      unlink_scan ((storage_seek_in_region st 4).2) dir name fuel
    else
      let r2 := storage_read_in_region st 2
      let metadata_region := bytesToNatLE r2.1
      let r3 := storage_read_in_region r2.2.2 2
      let content_region := bytesToNatLE r3.1
      let r4 := storage_seek_in_region r3.2.2 0
      let next_entry_position := r4.1
      let st := (storage_jump_to_region r4.2 metadata_region).2
      let r5 := storage_read_in_region st 8
      let r6 := storage_read_in_region r5.2.2 1
      let file_name_length := r6.1.headD 0
      let r7 := storage_read_in_region r6.2.2 file_name_length
      if cstrEq r7.1 name then
        -- Mark the table of contents entry as unused
        let st := (storage_jump_to_region r7.2.2 dir).2
        let st := (storage_seek_in_region st (entry_position : Int)).2
        let st := (storage_write_in_region st [UNUSED_ENTRY]).2
        -- Delete the regions used by this file
        let st := (storage_free_region st content_region).2
        let st := (storage_free_region st metadata_region).2
        (0, st)
      else
        let st := (storage_jump_to_region r7.2.2 dir).2
        unlink_scan (storage_seek_in_region st (next_entry_position : Int)).2 dir name fuel

/-- `unlink_virtual`. -/
def unlink_virtual (fs : FSState) (path : List Nat) : Int × FSState :=
  let fs := { fs with last_used_descriptor := -1 }
  let nav := navigate_to_virtual_directory fs.storage path
  if nav.1.directory_region = INVALID_REGION then (-1, { fs with storage := nav.2 })
  else
    let r := unlink_scan nav.2 nav.1.directory_region (nav.1.remainder_path.getD [])
               (dirScanFuel nav.2)
    (r.1, { fs with storage := r.2 })

/-! ## Initial states and scenario inputs -/

def emptyDescriptors : List (Option virtual_file) := List.replicate MAX_DESCRIPTORS none

/-- The file-system state over a freshly formatted backing file. -/
def initialVFS (bs bc : Nat) : FSState :=
  ⟨initialStorage bs bc, emptyDescriptors, -1⟩

/-- Path "f". -/
def pathF : List Nat := [102]
/-- Path "a". -/
def pathA : List Nat := [97]
/-- Path "b". -/
def pathB : List Nat := [98]
/-- Path "A". -/
def pathDirA : List Nat := [65]
/-- Path "A/B". -/
def pathDirAB : List Nat := [65, 47, 66]

/-- C1 scenario: a 4-block backing file; creating file `f` consumes blocks
1 (content), 2 and 3 (metadata chain), leaving no free block beyond the 10
payload bytes of block 1. -/
def c1_fs0 : FSState := initialVFS 10 4

/-- The state of the C1 scenario after `open("f", O_CREAT)` returned
descriptor 0. -/
def c1_fs1 : FSState := (open_virtual c1_fs0 pathF O_CREAT).2

/-- An 11-byte buffer: one byte more than the 10 bytes of space left in the
C1 scenario. -/
def c1_buf : List Nat := List.replicate 11 5

/-- C2 scenario: create `a`, create `b`, write 3 bytes to `b` (its stored
length becomes 4), close, unlink `a` (so the next allocation reuses block 1
rather than `b`'s old content head 4), then reopen `b` with O_TRUNC. -/
def c2_fs : FSState :=
  let s := (open_virtual (initialVFS 10 16) pathA O_CREAT).2
  let s := close_virtual s 0
  let s := (open_virtual s pathB O_CREAT).2
  let s := (write_virtual s 0 [9, 9, 9]).2
  let s := close_virtual s 0
  (unlink_virtual s pathA).2

/-- The C2 open call under test. -/
def c2_open : Int × FSState := open_virtual c2_fs pathB O_TRUNC

/-- C4 scenario: `mkdir("A"); mkdir("A/B")`; directory A's content region is
block 1 and holds B's DIRECTORY entry at offset 0; B's content and metadata
regions are blocks 3 and 4. -/
def c4_fs : FSState :=
  (mkdir_virtual ((mkdir_virtual (initialVFS 10 32) pathDirA).2) pathDirAB).2

/-- The C4 rmdir call under test. -/
def c4_rm : Int × FSState := rmdir_virtual c4_fs pathDirAB

/-- C5/C6 scenario: create `f`, write 3 bytes (stored length becomes 4),
close.  The file `f` then exists with length 4 and no descriptor is open. -/
def c5_fs : FSState :=
  let s := (open_virtual (initialVFS 10 16) pathF O_CREAT).2
  let s := (write_virtual s 0 [7, 7, 7]).2
  close_virtual s 0

/-- Descriptor-table invariant of the spec: every live descriptor satisfies
`0 ≤ cursor ≤ length` (the lower bound is inherent in the `Nat` model of
`size_t`). -/
def DescInv (fs : FSState) : Prop :=
  ∀ i f, fs.descriptors.getD i none = some f → f.reader_position ≤ f.length

/-- The seek target as the original claim states it: `base + offset`
clamped to `[0, length]`, with no 64-bit wrap of the sum. -/
def seekTarget (base offset len : Int) : Int :=
  if base + offset < 0 then 0 else if len < base + offset then len else base + offset

/-- Clamp of an already-computed seek target into `[0, length]`. -/
def seekClamp (x len : Int) : Int :=
  if x < 0 then 0 else if len < x then len else x

/-- A state with one live descriptor `{1, 2, 4, 1}` used to witness the
seek specification. -/
def c7_fs : FSState :=
  ⟨initialStorage 10 4, some ⟨1, 2, 4, 1⟩ :: List.replicate 255 none, -1⟩

/-- The state (computed by the operational definitions above) after
`open("f", O_CREAT)` on a freshly formatted default backing file: file `f`
occupies content region 1 and metadata regions 2–3, the root directory
holds its FILE entry, descriptor 0 holds `{1, 2, 0, 0}`. -/
def c3_s1 : FSState :=
  { storage :=
    { initialized := true
    , active_block_size := 10
    , active_block_count := 128
    , blocks :=
        [ ⟨⟨true, 65535, 65535⟩, [2, 2, 0, 1, 0, 0, 0, 0, 0, 0]⟩
        , ⟨⟨true, 65535, 65535⟩, [0, 0, 0, 0, 0, 0, 0, 0, 0, 0]⟩
        , ⟨⟨true, 65535, 3⟩, [0, 0, 0, 0, 0, 0, 0, 0, 1, 102]⟩
        , ⟨⟨true, 2, 65535⟩, [0, 0, 0, 0, 0, 0, 0, 0, 0, 0]⟩ ]
        ++ List.replicate 124 ⟨⟨false, 65535, 65535⟩, List.replicate 10 0⟩
    , current_block_index := 3
    , current_block_position := 0
    , current_region_position := 10
    , current_block := ⟨true, 2, 65535⟩ }
  , descriptors := some ⟨1, 2, 0, 0⟩ :: List.replicate 255 none
  , last_used_descriptor := -1 }

/-- `c3_s1` after `jump_to_file_if_needed` for descriptor 0: the engine
cursor sits at the head of content region 1, position 0. -/
def c3_s1r : FSState :=
  { storage := { c3_s1.storage with
      current_block_index := 1
    , current_block_position := 0
    , current_region_position := 0
    , current_block := ⟨true, 65535, 65535⟩ }
  , descriptors := c3_s1.descriptors
  , last_used_descriptor := 0 }

/-- The C3 round-trip scenario: on a freshly formatted default backing
file, create `f`, write `B`, seek back to 0 and read `B.length` bytes;
returns the bytes delivered by the read. -/
def c3_scenario (B : List Nat) : List Nat :=
  let r1 := open_virtual (initialVFS DEFAULT_BLOCK_SIZE DEFAULT_BLOCK_COUNT) pathF O_CREAT
  let fd := r1.1
  let r2 := write_virtual r1.2 fd B
  let r3 := seek_virtual r2.2 fd 0 SEEK_SET
  (read_virtual r3.2 fd B.length).1

/-! ## Theorems -/

/-! ### Generic helper lemmas -/

theorem getBlockL_set_self {blocks : List BlockData} {i : Nat} {b : BlockData}
    (h : i < blocks.length) : getBlockL (blocks.set i b) i = b := by
  simp [getBlockL, List.getD_eq_getElem?_getD, List.getElem?_set, h]

theorem getBlockL_set_ne {blocks : List BlockData} {i j : Nat} {b : BlockData}
    (h : i ≠ j) : getBlockL (blocks.set i b) j = getBlockL blocks j := by
  simp [getBlockL, List.getD_eq_getElem?_getD, List.getElem?_set, h]

/-! ### The allocate-block scan (claim C8) -/

theorem allocate_block_loop_full : ∀ (fuel : Nat) (s : StorageState) (i prev : Nat),
    (∀ j, i ≤ j → j < s.active_block_count → (getBlock s j).header.in_use = true) →
    (allocate_block_loop s prev i fuel).1 = INVALID_REGION ∧
    (allocate_block_loop s prev i fuel).2.blocks = s.blocks := by
  intro fuel
  induction fuel with
  | zero => intro s i prev _; exact ⟨rfl, rfl⟩
  | succ fuel ih =>
    intro s i prev hused
    simp only [allocate_block_loop]
    by_cases hi : i < s.active_block_count
    · rw [if_pos hi]
      have hcache : (jump_to_block s i).current_block = (getBlock s i).header := by
        simp [jump_to_block, if_neg (Nat.not_le.mpr hi), getBlock]
      rw [hcache, hused i (Nat.le_refl i) hi]
      simp only [Bool.not_true, Bool.false_eq_true, if_false]
      have := ih (jump_to_block s i) (i + 1) prev
        (by intro j h1 h2
            simp only [jump_to_block, if_neg (Nat.not_le.mpr hi)] at h2 ⊢
            exact hused j (by omega) h2)
      simpa [jump_to_block, if_neg (Nat.not_le.mpr hi)] using this
    · rw [if_neg hi]; exact ⟨rfl, rfl⟩

theorem allocate_block_loop_found : ∀ (fuel : Nat) (s : StorageState) (i prev j0 : Nat),
    s.blocks.length = s.active_block_count →
    i ≤ j0 → j0 < s.active_block_count →
    (getBlock s j0).header.in_use = false →
    (∀ j, i ≤ j → j < j0 → (getBlock s j).header.in_use = true) →
    j0 - i < fuel →
    allocate_block_loop s prev i fuel =
      (j0, { s with
          blocks := s.blocks.set j0 ⟨⟨true, prev, INVALID_REGION⟩, (getBlock s j0).payload⟩,
          current_block_index := j0,
          current_block_position := 0,
          current_block := (getBlock s j0).header }) := by
  intro fuel
  induction fuel with
  | zero => intro s i prev j0 _ _ _ _ _ hfuel; omega
  | succ fuel ih =>
    intro s i prev j0 hlen hij hj0 hfree hused hfuel
    simp only [allocate_block_loop]
    have hi : i < s.active_block_count := by omega
    rw [if_pos hi]
    have hguard : ¬ s.active_block_count ≤ i := Nat.not_le.mpr hi
    by_cases heq : i = j0
    · subst heq
      simp only [jump_to_block, if_neg hguard]
      rw [show (getBlock s i).header.in_use = false from hfree]
      simp only [Bool.not_false, if_true]
      simp [setBlock, getBlock]
    · have hiu := hused i (Nat.le_refl i) (by omega)
      simp only [jump_to_block, if_neg hguard]
      rw [show (getBlock s i).header.in_use = true from hiu]
      simp only [Bool.not_true, Bool.false_eq_true, if_false]
      have := ih { s with current_block_index := i
                        , current_block := (getBlock s i).header
                        , current_block_position := 0 }
        (i + 1) prev j0 hlen (by omega) hj0 hfree
        (fun j h1 h2 => hused j (by omega) h2) (by omega)
      simpa [getBlock] using this

theorem getD_some_lt {l : List (Option virtual_file)} {i : Nat} {f : virtual_file}
    (h : l.getD i none = some f) : i < l.length := by
  by_contra hge
  rw [List.getD_eq_getElem?_getD, List.getElem?_eq_none (by omega)] at h
  simp at h

theorem getDescriptor_range {fs : FSState} {fd : Int} {f : virtual_file}
    (h : getDescriptor fs fd = some f) :
    0 ≤ fd ∧ fd < (MAX_DESCRIPTORS : Int) ∧ fd.toNat < fs.descriptors.length ∧
      fs.descriptors.getD fd.toNat none = some f := by
  unfold getDescriptor at h
  split at h
  · exact absurd h (by simp)
  · rename_i hr
    push_neg at hr
    exact ⟨hr.1, hr.2, getD_some_lt h, h⟩

theorem getDescriptor_set_self {fs : FSState} {fd : Int} {f0 : virtual_file}
    (x : Option virtual_file) (h : getDescriptor fs fd = some f0) :
    getDescriptor (setDescriptor fs fd x) fd = x := by
  obtain ⟨h0, h1, h2, _⟩ := getDescriptor_range h
  unfold getDescriptor setDescriptor
  rw [if_neg (by omega)]
  simp only
  rw [List.getD_eq_getElem?_getD, List.getElem?_set, if_pos rfl,
    if_pos (by simpa using h2)]
  rfl

theorem getDescriptor_set_ne {fs : FSState} {fd fd2 : Int} {f0 : virtual_file}
    (x : Option virtual_file) (h : getDescriptor fs fd = some f0) (h2 : fd2 ≠ fd) :
    getDescriptor (setDescriptor fs fd x) fd2 = getDescriptor fs fd2 := by
  obtain ⟨h0, h1, _, _⟩ := getDescriptor_range h
  unfold getDescriptor setDescriptor
  split
  · rfl
  · rename_i hr2
    push_neg at hr2
    simp only
    rw [List.getD_eq_getElem?_getD, List.getD_eq_getElem?_getD, List.getElem?_set,
      if_neg (by omega)]

theorem wrap64_eq_self {x : Int} (h1 : -(2 ^ 63) ≤ x) (h2 : x < 2 ^ 63) :
    wrap64 x = x := by
  unfold wrap64
  rw [Int.emod_eq_of_lt (by omega) (by omega)]
  omega

/-- C8: `allocate_block` scans blocks linearly from 0; at the first block
with `in_use = 0` it rewrites that block's header to
`in_use=1, prev=prev_block, next=INVALID` (payload untouched) and returns
its index; if every block in `0..block_count-1` is in use it returns
INVALID.  The first conjunct is the exhausted case, the second the
first-free-block case (`j0` free with all blocks below it in use). -/
theorem c8_allocate_spec (s : StorageState) (prev : Nat)
    (hlen : s.blocks.length = s.active_block_count) :
    ((∀ j, j < s.active_block_count → (getBlock s j).header.in_use = true) →
      (allocate_block s prev).1 = INVALID_REGION ∧
      (allocate_block s prev).2.blocks = s.blocks) ∧
    (∀ j0, j0 < s.active_block_count → (getBlock s j0).header.in_use = false →
      (∀ j, j < j0 → (getBlock s j).header.in_use = true) →
      (allocate_block s prev).1 = j0 ∧
      (allocate_block s prev).2.blocks = s.blocks.set j0
        ⟨⟨true, prev, INVALID_REGION⟩, (getBlock s j0).payload⟩) := by
  constructor
  · intro hall
    exact allocate_block_loop_full s.active_block_count s 0 prev
      (fun j _ hj => hall j hj)
  · intro j0 hj0 hfree hbelow
    have := allocate_block_loop_found s.active_block_count s 0 prev j0 hlen
      (Nat.zero_le j0) hj0 hfree (fun j _ hj => hbelow j hj) (by omega)
    unfold allocate_block
    rw [this]
    exact ⟨rfl, rfl⟩

/-- Witness for C8: on a freshly formatted 4-block backing file (block 0
allocated as the root), `allocate_block` returns block 1, the first free
block. -/
theorem c8_allocate_spec_witness :
    (initialStorage 10 4).blocks.length = (initialStorage 10 4).active_block_count ∧
    (allocate_block (initialStorage 10 4) 7).1 = 1 := by
  refine ⟨by decide, ?_⟩
  exact ((c8_allocate_spec (initialStorage 10 4) 7 (by decide)).2 1 (by decide) (by decide)
    (by decide)).1

/-- C7 counterexample: the original claim says the new position is
`base + offset` clamped to `[0, length]` for every seek call.  On the live
descriptor `{1, 2, 4, 1}`, `seek(0, 2^63 - 1, SEEK_CUR)` would then clamp
`1 + (2^63 - 1) = 2^63` to the length 4; but the C computes the
`size_t + off_t` sum in unsigned 64-bit and reads it back as a negative
`off_t`, so the call clamps to 0 instead. -/
theorem c7_counterexample :
    getDescriptor c7_fs 0 = some ⟨1, 2, 4, 1⟩ ∧
    seekTarget 1 (2 ^ 63 - 1) 4 = 4 ∧
    (seek_virtual c7_fs 0 (2 ^ 63 - 1) SEEK_CUR).1 = 0 := by
  refine ⟨by decide, by decide, by decide⟩

/-- C7 (amended): for a live descriptor and `whence` in `{SET, CUR, END}`,
seek computes the target as `offset` itself for SET and as the
`size_t + off_t` sum reduced mod `2 ^ 64` and read back as signed
(`wrap64`) for CUR (base: the cursor) and END (base: the length); the
target is clamped to `[0, length]`, the clamped value is returned, only
that descriptor's cursor field is updated (the storage-engine state, the
other descriptors and the affinity cache are untouched), and the stored
cursor equals the returned value. -/
theorem c7_seek_spec (fs : FSState) (fd : Int) (offset whence target : Int)
    (f : virtual_file)
    (hfd : getDescriptor fs fd = some f)
    (hw : whence = SEEK_SET ∨ whence = SEEK_CUR ∨ whence = SEEK_END)
    (htarget : target = if whence = SEEK_SET then offset
      else if whence = SEEK_CUR then wrap64 ((f.reader_position : Int) + offset)
      else wrap64 ((f.length : Int) + offset)) :
    (seek_virtual fs fd offset whence).1 = seekClamp target (f.length : Int) ∧
    (seek_virtual fs fd offset whence).2.storage = fs.storage ∧
    (seek_virtual fs fd offset whence).2.last_used_descriptor = fs.last_used_descriptor ∧
    getDescriptor (seek_virtual fs fd offset whence).2 fd =
      some { f with reader_position := (seekClamp target (f.length : Int)).toNat } ∧
    (∀ fd2, fd2 ≠ fd →
      getDescriptor (seek_virtual fs fd offset whence).2 fd2 = getDescriptor fs fd2) := by
  have hred : seek_virtual fs fd offset whence =
      (seekClamp target (f.length : Int),
       setDescriptor fs fd
         (some { f with reader_position := (seekClamp target (f.length : Int)).toNat })) := by
    rcases hw with hw | hw | hw <;> subst hw
    · have hb : target = offset := by rw [htarget, if_pos rfl]
      rw [hb]
      have h1 : seek_virtual fs fd offset SEEK_SET =
          ((if offset < 0 then 0 else if (f.length : Int) < offset then (f.length : Int) else offset),
           setDescriptor fs fd (some { f with reader_position :=
             (if offset < 0 then 0
              else if (f.length : Int) < offset then (f.length : Int) else offset).toNat })) := by
        unfold seek_virtual
        rw [hfd]
        rfl
      rw [h1]
      rfl
    · have hb : target = wrap64 ((f.reader_position : Int) + offset) := by
        rw [htarget, if_neg (by decide), if_pos rfl]
      rw [hb]
      have h1 : seek_virtual fs fd offset SEEK_CUR =
          ((if wrap64 ((f.reader_position : Int) + offset) < 0 then 0
            else if (f.length : Int) < wrap64 ((f.reader_position : Int) + offset) then (f.length : Int)
            else wrap64 ((f.reader_position : Int) + offset)),
           setDescriptor fs fd (some { f with reader_position :=
             (if wrap64 ((f.reader_position : Int) + offset) < 0 then 0
              else if (f.length : Int) < wrap64 ((f.reader_position : Int) + offset) then (f.length : Int)
              else wrap64 ((f.reader_position : Int) + offset)).toNat })) := by
        unfold seek_virtual
        rw [hfd]
        rfl
      rw [h1]
      rfl
    · have hb : target = wrap64 ((f.length : Int) + offset) := by
        rw [htarget, if_neg (by decide), if_neg (by decide)]
      rw [hb]
      have h1 : seek_virtual fs fd offset SEEK_END =
          ((if wrap64 ((f.length : Int) + offset) < 0 then 0
            else if (f.length : Int) < wrap64 ((f.length : Int) + offset) then (f.length : Int)
            else wrap64 ((f.length : Int) + offset)),
           setDescriptor fs fd (some { f with reader_position :=
             (if wrap64 ((f.length : Int) + offset) < 0 then 0
              else if (f.length : Int) < wrap64 ((f.length : Int) + offset) then (f.length : Int)
              else wrap64 ((f.length : Int) + offset)).toNat })) := by
        unfold seek_virtual
        rw [hfd]
        rfl
      rw [h1]
      rfl
  refine ⟨by rw [hred], by rw [hred]; rfl, by rw [hred]; rfl, ?_, ?_⟩
  · rw [hred]
    simpa using getDescriptor_set_self _ hfd
  · intro fd2 hne
    rw [hred]
    exact getDescriptor_set_ne _ hfd hne

/-- Witness for the amended C7: seeking descriptor 0 (cursor 1, length 4)
by +10 from SEEK_CUR (the wrapped sum is just 11) clamps to the length 4
and stores cursor 4. -/
theorem c7_seek_spec_witness :
    getDescriptor c7_fs 0 = some ⟨1, 2, 4, 1⟩ ∧
    (seek_virtual c7_fs 0 10 SEEK_CUR).1 = 4 ∧
    getDescriptor (seek_virtual c7_fs 0 10 SEEK_CUR).2 0 = some ⟨1, 2, 4, 4⟩ := by
  have h := c7_seek_spec c7_fs 0 10 SEEK_CUR (wrap64 (1 + 10)) ⟨1, 2, 4, 1⟩ (by decide)
    (Or.inr (Or.inl rfl)) (by decide)
  refine ⟨by decide, ?_, ?_⟩
  · rw [h.1]; decide
  · rw [h.2.2.2.1]; decide

/-- C1: the claim says a write for which the storage engine accepts only
`k < n` bytes returns `k` and stores a length reflecting only the accepted
bytes.  Evaluating the code on the failing input refutes this: in the
4-block scenario the storage engine accepts only 10 of the 11 bytes
(allocation fails), yet `write_virtual` returns the full 11, and the length
stored for descriptor 0 and persisted to the metadata region is 12
(`cursor + 1` over the unwritten cursor), reflecting neither the 10
accepted bytes nor a length-10 file. -/
theorem c1_short_write_eval :
    (open_virtual c1_fs0 pathF O_CREAT).1 = 0 ∧
    (storage_write_in_region (jump_to_file_if_needed c1_fs1 0).storage c1_buf).1 = 10 ∧
    (write_virtual c1_fs1 0 c1_buf).1 = 11 ∧
    getDescriptor (write_virtual c1_fs1 0 c1_buf).2 0 = some ⟨1, 2, 12, 11⟩ ∧
    (getBlock (write_virtual c1_fs1 0 c1_buf).2.storage 2).payload.take 8 = u64Bytes 12 := by
  decide

/-- C2: the claim says that after `open` with TRUNCATE on an existing file
the stored descriptor refers to a freshly allocated empty content region,
its length is 0 and the length 0 is persisted.  Evaluating the code
refutes this: in the scenario, file `b` has content region 4, metadata
region 5 and stored length 4; after `open(b, O_TRUNC)` the descriptor still
holds the old handle `{4, 5, 4, 0}`, block 4 has been freed (the descriptor
points at a freed region), the freshly allocated region is block 1 and is
referenced by nothing, and the metadata region still holds length 4. -/
theorem c2_truncate_eval :
    c2_open.1 = 0 ∧
    getDescriptor c2_open.2 0 = some ⟨4, 5, 4, 0⟩ ∧
    (getBlock c2_open.2.storage 4).header.in_use = false ∧
    (getBlock c2_open.2.storage 1).header.in_use = true ∧
    (getBlock c2_open.2.storage 5).payload.take 8 = u64Bytes 4 := by
  decide

/-- C4: the claim says rmdir marks the subdirectory's entry in the
containing directory as UNUSED.  Evaluating `rmdir("A/B")` refutes this:
the call returns 0 and frees B's content and metadata regions (blocks 3 and
4), but B's entry at offset 0 of A's content region (block 1) still carries
the DIRECTORY type code 3, while the UNUSED mark was written at offset 0 of
the root directory region instead, clobbering A's own entry. -/
theorem c4_rmdir_eval :
    c4_rm.1 = 0 ∧
    (getBlock c4_rm.2.storage 1).payload.headD 99 = DIRECTORY_ENTRY ∧
    (getBlock c4_rm.2.storage 0).payload.headD 99 = UNUSED_ENTRY ∧
    (getBlock c4_rm.2.storage 3).header.in_use = false ∧
    (getBlock c4_rm.2.storage 4).header.in_use = false := by
  decide

/-- C5: the claim says open with APPEND on an existing file of length `L`
stores an initial cursor equal to `L`.  Evaluating the code refutes this:
file `f` exists with length 4, yet after `open("f", O_APPEND)` the stored
descriptor is `{1, 2, 4, 0}` — its cursor is 0, because the C code sets
`reader_position` on a local copy after the handle has already been stored
in the descriptor table. -/
theorem c5_append_eval :
    (open_virtual c5_fs pathF O_APPEND).1 = 0 ∧
    getDescriptor (open_virtual c5_fs pathF O_APPEND).2 0 = some ⟨1, 2, 4, 0⟩ := by
  decide

/-- C6 counterexample: the claim says that with EXCLUSIVE set but CREATE
absent, EXCLUSIVE is ignored and opening an existing file succeeds with a
non-negative descriptor.  Concretely: `f` exists (its content region is not
INVALID and a plain open succeeds), yet `open("f", O_EXCL)` returns -1. -/
theorem c6_counterexample :
    (find_virtual_file c5_fs.storage pathF).1.content_region ≠ INVALID_REGION ∧
    0 ≤ (open_virtual c5_fs pathF 0).1 ∧
    O_EXCL &&& O_CREAT = 0 ∧
    (open_virtual c5_fs pathF O_EXCL).1 = -1 := by
  decide

/-- C6 (amended): whenever the EXCLUSIVE flag is set and the file exists,
`open_virtual` fails with -1 — with or without CREATE.  (With a full
descriptor table it also returns -1, so the conclusion holds
unconditionally on the table.) -/
theorem c6_excl_rejects_existing (fs : FSState) (path : List Nat) (flags : Nat)
    (hex : flags &&& O_EXCL ≠ 0)
    (hfound : (find_virtual_file fs.storage path).1.content_region ≠ INVALID_REGION) :
    (open_virtual fs path flags).1 = -1 := by
  unfold open_virtual
  by_cases h1 : find_first_free fs = -1
  · rw [if_pos h1]
  · rw [if_neg h1]
    simp only
    rw [if_neg hfound, if_pos hex]

/-- Witness for the amended C6: file `f` exists in `c5_fs`, O_EXCL is set
(without O_CREAT), and open returns -1. -/
theorem c6_excl_rejects_existing_witness :
    O_EXCL &&& O_EXCL ≠ 0 ∧
    (find_virtual_file c5_fs.storage pathF).1.content_region ≠ INVALID_REGION ∧
    (open_virtual c5_fs pathF O_EXCL).1 = -1 := by
  refine ⟨by decide, by decide, ?_⟩
  exact c6_excl_rejects_existing c5_fs pathF O_EXCL (by decide) (by decide)

/-- C10: whenever `open_virtual` returns -1 — no free descriptor slot, path
resolution failure without CREATE, creation failure, or EXCLUSIVE rejecting
an existing file — the descriptor table is unchanged: no slot has been
consumed. -/
theorem c10_open_failure_preserves_descriptors (fs : FSState) (path : List Nat)
    (flags : Nat) (h : (open_virtual fs path flags).1 = -1) :
    (open_virtual fs path flags).2.descriptors = fs.descriptors := by
  unfold open_virtual at h ⊢
  by_cases h1 : find_first_free fs = -1
  · rw [if_pos h1]
  · rw [if_neg h1] at h ⊢
    simp only at h ⊢
    by_cases h2 : (find_virtual_file
        { fs with last_used_descriptor := -1 }.storage path).1.content_region = INVALID_REGION
    · rw [if_pos h2] at h ⊢
      by_cases h3 : flags &&& O_CREAT = 0
      · rw [if_pos h3]
      · rw [if_neg h3] at h ⊢
        by_cases h4 : (create_virtual_file (find_virtual_file fs.storage path).2
            path).1.content_region = INVALID_REGION
        · rw [if_pos h4]
        · rw [if_neg h4] at h
          exact absurd h h1
    · rw [if_neg h2] at h ⊢
      by_cases h5 : flags &&& O_EXCL ≠ 0
      · rw [if_pos h5]
      · rw [if_neg h5] at h
        exact absurd h h1

/-- Witness for C10: opening a missing file without CREATE returns -1 and
the (empty) descriptor table is unchanged. -/
theorem c10_open_failure_preserves_descriptors_witness :
    (open_virtual (initialVFS 10 16) pathA 0).1 = -1 ∧
    (open_virtual (initialVFS 10 16) pathA 0).2.descriptors = (initialVFS 10 16).descriptors := by
  refine ⟨by decide, ?_⟩
  exact c10_open_failure_preserves_descriptors _ _ _ (by decide)

/-! ### The descriptor invariant (claim C9) -/

theorem getD_set_cases (l : List (Option virtual_file)) (i j : Nat)
    (x : Option virtual_file) :
    (l.set i x).getD j none = if i = j ∧ i < l.length then x else l.getD j none := by
  rw [List.getD_eq_getElem?_getD, List.getD_eq_getElem?_getD, List.getElem?_set]
  by_cases h : i = j
  · subst h
    by_cases h2 : i < l.length
    · simp [h2]
    · rw [List.getElem?_eq_none (by omega : l.length ≤ i)]
      simp [h2]
  · simp [h]

theorem DescInv_congr {fs1 fs2 : FSState} (h : fs2.descriptors = fs1.descriptors)
    (hinv : DescInv fs1) : DescInv fs2 := by
  intro i f hf
  rw [h] at hf
  exact hinv i f hf

theorem DescInv_set {fs : FSState} {fd : Int} {f : virtual_file}
    (h : DescInv fs) (hf : f.reader_position ≤ f.length) :
    DescInv (setDescriptor fs fd (some f)) := by
  intro i g hg
  unfold setDescriptor at hg
  simp only at hg
  rw [getD_set_cases] at hg
  split at hg
  · cases hg; exact hf
  · exact h i g hg

theorem DescInv_set_none {fs : FSState} {fd : Int} (h : DescInv fs) :
    DescInv (setDescriptor fs fd none) := by
  intro i g hg
  unfold setDescriptor at hg
  simp only at hg
  rw [getD_set_cases] at hg
  split at hg
  · cases hg
  · exact h i g hg

theorem setDescriptor_setDescriptor (fs : FSState) (fd : Int)
    (a b : Option virtual_file) :
    setDescriptor (setDescriptor fs fd a) fd b = setDescriptor fs fd b := by
  unfold setDescriptor
  simp only
  rw [List.set_set]

theorem jump_to_file_descriptors (fs : FSState) (fd : Int) :
    (jump_to_file_if_needed fs fd).descriptors = fs.descriptors := by
  unfold jump_to_file_if_needed
  dsimp only
  split
  · rfl
  · split <;> rfl

theorem update_metadata_descriptors (fs : FSState) (m l : Nat) :
    (update_virtual_file_metadata fs m l).descriptors = fs.descriptors := rfl

theorem mkdir_descriptors (fs : FSState) (path : List Nat) :
    (mkdir_virtual fs path).2.descriptors = fs.descriptors := by
  unfold mkdir_virtual
  dsimp only
  split
  · rfl
  · split
    · rfl
    · split <;> rfl

theorem rmdir_descriptors (fs : FSState) (path : List Nat) :
    (rmdir_virtual fs path).2.descriptors = fs.descriptors := by
  unfold rmdir_virtual
  dsimp only
  split <;> rfl

theorem unlink_descriptors (fs : FSState) (path : List Nat) :
    (unlink_virtual fs path).2.descriptors = fs.descriptors := by
  unfold unlink_virtual
  dsimp only
  split <;> rfl

theorem find_scan_reader_zero : ∀ (fuel : Nat) (st : StorageState) (dir : Nat)
    (name : List Nat), (find_scan st dir name fuel).1.reader_position = 0 := by
  intro fuel
  induction fuel with
  | zero => intro st dir name; rfl
  | succ fuel ih =>
    intro st dir name
    unfold find_scan
    dsimp only
    split
    · rfl
    · split
      · exact ih _ _ _
      · split
        · rfl
        · exact ih _ _ _

theorem find_virtual_file_reader_zero (st : StorageState) (path : List Nat) :
    (find_virtual_file st path).1.reader_position = 0 := by
  unfold find_virtual_file
  dsimp only
  split
  · rfl
  · exact find_scan_reader_zero _ _ _ _

theorem create_virtual_file_reader_zero (st : StorageState) (path : List Nat) :
    (create_virtual_file st path).1.reader_position = 0 := by
  unfold create_virtual_file
  dsimp only
  split
  · rfl
  · split
    · rfl
    · split <;> rfl

theorem open_finish_DescInv {fs : FSState} {fad : Int} {file : virtual_file}
    {flags : Nat} (h : DescInv fs) (hf : file.reader_position ≤ file.length) :
    DescInv (open_finish fs fad file flags).2 := by
  unfold open_finish
  simp only
  split
  · exact DescInv_congr rfl (DescInv_set h hf)
  · exact DescInv_set h hf

/-! ### Chain lemmas and the round-trip law (claim C3) -/

theorem overwriteAt_length {l data : List Nat} {pos : Nat}
    (h : pos + data.length ≤ l.length) :
    (overwriteAt l pos data).length = l.length := by
  unfold overwriteAt
  simp only [List.length_append, List.length_take, List.length_drop]
  omega

theorem chainBytesFrom_oob {blocks : List BlockData} {cnt i : Nat} (fuel : Nat)
    (h : cnt ≤ i) : chainBytesFrom blocks cnt i fuel = [] := by
  cases fuel with
  | zero => rfl
  | succ fuel => unfold chainBytesFrom; rw [if_pos h]

theorem chainBlocksFrom_oob {blocks : List BlockData} {cnt i : Nat} (fuel : Nat)
    (h : cnt ≤ i) : chainBlocksFrom blocks cnt i fuel = [] := by
  cases fuel with
  | zero => rfl
  | succ fuel => unfold chainBlocksFrom; rw [if_pos h]

theorem chainBytesFrom_succ {blocks : List BlockData} {cnt i : Nat} (fuel : Nat)
    (h : i < cnt) :
    chainBytesFrom blocks cnt i (fuel + 1) = (getBlockL blocks i).payload ++
      chainBytesFrom blocks cnt (getBlockL blocks i).header.next_block fuel := by
  unfold chainBytesFrom
  rw [if_neg (Nat.not_le.mpr h)]
  cases fuel <;> rfl

theorem chainBlocksFrom_succ {blocks : List BlockData} {cnt i : Nat} (fuel : Nat)
    (h : i < cnt) :
    chainBlocksFrom blocks cnt i (fuel + 1) = i ::
      chainBlocksFrom blocks cnt (getBlockL blocks i).header.next_block fuel := by
  unfold chainBlocksFrom
  rw [if_neg (Nat.not_le.mpr h)]
  cases fuel <;> rfl

/-- Two block stores that agree on every block of a chain produce the same
chain. -/
theorem chainBytes_congr : ∀ (fuel : Nat) (bA bB : List BlockData) (cnt c : Nat),
    (∀ j, j ∈ chainBlocksFrom bA cnt c fuel → getBlockL bB j = getBlockL bA j) →
    chainBytesFrom bB cnt c fuel = chainBytesFrom bA cnt c fuel := by
  intro fuel
  induction fuel with
  | zero => intro bA bB cnt c _; rfl
  | succ fuel ih =>
    intro bA bB cnt c hagree
    by_cases hc : cnt ≤ c
    · rw [chainBytesFrom_oob _ hc, chainBytesFrom_oob _ hc]
    · have hc' : c < cnt := Nat.not_le.mp hc
      have hmem : c ∈ chainBlocksFrom bA cnt c (fuel + 1) := by
        rw [chainBlocksFrom_succ _ hc']
        exact List.mem_cons_self _ _
      have hcb := hagree c hmem
      rw [chainBytesFrom_succ _ hc', chainBytesFrom_succ _ hc', hcb]
      congr 1
      apply ih
      intro j hj
      apply hagree
      rw [chainBlocksFrom_succ _ hc']
      exact List.mem_cons_of_mem _ hj

/-- `storage_write_in_region` for a write that stays inside the current
block: only the current block's payload changes and the cursor advances. -/
theorem storage_write_small (st : StorageState) (data : List Nat)
    (h1 : st.initialized = true)
    (h2 : st.current_block_position + data.length < st.active_block_size) :
    storage_write_in_region st data =
      (data.length,
       { st with
          blocks := st.blocks.set st.current_block_index
            ⟨(getBlockL st.blocks st.current_block_index).header,
              overwriteAt (getBlockL st.blocks st.current_block_index).payload
                st.current_block_position data⟩,
          current_block_position := st.current_block_position + data.length,
          current_region_position := st.current_region_position + data.length }) := by
  have hboot : storage_write_in_region st data =
      storage_write_loop st data 0 (st.active_block_count + 1) := by
    unfold storage_write_in_region
    rw [h1]
    rfl
  rw [hboot]
  unfold storage_write_loop
  rw [if_neg (show ¬ (st.active_block_size ≤ st.current_block_position + data.length - 0)
    from by omega)]
  dsimp only
  rw [Nat.sub_zero, List.drop_zero, List.take_length]
  rfl

/-- `storage_seek_in_region` with offset 0 at region position 0 is the
identity. -/
theorem seek_zero_engine (st : StorageState) (hinit : st.initialized = true)
    (hrp : st.current_region_position = 0) :
    storage_seek_in_region st 0 = (0, st) := by
  unfold storage_seek_in_region
  rw [hinit]
  dsimp only
  simp only [lt_self_iff_false, if_false]
  have h0 : usizeAddInt st.current_region_position 0 = 0 := by
    rw [hrp]; decide
  rw [h0, ← hrp]
  rfl

theorem jump_region_eq (st : StorageState) (r : Nat) (hinit : st.initialized = true)
    (hr : r < st.active_block_count) :
    storage_jump_to_region st r =
      (0, { st with
          current_block_index := r,
          current_block := (getBlockL st.blocks r).header,
          current_block_position := 0,
          current_region_position := 0 }) := by
  unfold storage_jump_to_region jump_to_block
  rw [hinit]
  dsimp only
  rw [if_neg (Nat.not_le.mpr hr)]
  rfl

/-- `jump_to_file_if_needed` for descriptor 0 when the affinity cache is
invalid and the descriptor's cursor is 0: jump to the content region
head. -/
theorem jump_to_file_fresh (fs : FSState) (f : virtual_file)
    (hfd : getDescriptor fs 0 = some f) (hl : fs.last_used_descriptor = -1)
    (hr : f.reader_position = 0) (hinit : fs.storage.initialized = true)
    (hc : f.content_region < fs.storage.active_block_count) :
    jump_to_file_if_needed fs 0 =
      { fs with
          storage := { fs.storage with
            current_block_index := f.content_region,
            current_block := (getBlockL fs.storage.blocks f.content_region).header,
            current_block_position := 0,
            current_region_position := 0 },
          last_used_descriptor := 0 } := by
  unfold jump_to_file_if_needed
  rw [hl, if_neg (by decide), hfd]
  dsimp only
  rw [jump_region_eq _ _ hinit hc]
  dsimp only
  rw [hr]
  rw [show ((0 : Nat) : Int) = 0 from rfl]
  rw [seek_zero_engine { fs.storage with
        current_block_index := f.content_region,
        current_block := (getBlockL fs.storage.blocks f.content_region).header,
        current_block_position := 0,
        current_region_position := 0 } hinit rfl]

/-- The read loop delivers the chain bytes: starting at payload offset 0 of
block `c` with strictly more chain bytes available than requested, the loop
returns exactly the requested prefix of the chain. -/
theorem read_loop_chain : ∀ (fuel : Nat) (s : StorageState) (c : Nat)
    (acc : List Nat) (n : Nat),
    s.active_block_size = 10 →
    s.active_block_count = 128 →
    (∀ j, j < 128 → (getBlockL s.blocks j).payload.length = 10) →
    s.current_block_index = c →
    s.current_block_position = 0 →
    s.current_block = (getBlockL s.blocks c).header →
    c < 128 →
    acc.length ≤ n →
    n - acc.length < (chainBytesFrom s.blocks 128 c fuel).length →
    ∃ s', storage_read_loop s n acc fuel =
      (acc ++ (chainBytesFrom s.blocks 128 c fuel).take (n - acc.length), n, s') := by
  intro fuel
  induction fuel with
  | zero =>
    intro s c acc n _ _ _ _ _ _ _ _ hlt
    simp [chainBytesFrom] at hlt
  | succ fuel ih =>
    intro s c acc n hbs hcnt hpl hcbi hpos hcache hc hacc hlt
    have hplc : (getBlockL s.blocks c).payload.length = 10 := hpl c hc
    rw [chainBytesFrom_succ _ hc] at hlt ⊢
    unfold storage_read_loop
    simp only [getBlock]
    rw [hbs, hcbi, hpos, hcache]
    by_cases hrem : 10 ≤ 0 + n - acc.length
    · rw [if_pos hrem]
      rw [List.drop_zero]
      rw [show (getBlockL s.blocks c).payload.take 10 = (getBlockL s.blocks c).payload
        from by rw [← hplc, List.take_length]]
      by_cases hnext : (getBlockL s.blocks c).header.next_block = INVALID_REGION
      · exfalso
        rw [hnext, chainBytesFrom_oob fuel (by norm_num [INVALID_REGION])] at hlt
        simp only [List.append_nil, hplc] at hlt
        omega
      · rw [if_neg hnext]
        by_cases hnlt : (getBlockL s.blocks c).header.next_block < 128
        · have hjump : jump_to_block s (getBlockL s.blocks c).header.next_block =
              { s with
                current_block_index := (getBlockL s.blocks c).header.next_block,
                current_block := (getBlockL s.blocks
                  (getBlockL s.blocks c).header.next_block).header,
                current_block_position := 0 } := by
            unfold jump_to_block
            rw [hcnt, if_neg (Nat.not_le.mpr hnlt)]
            rfl
          rw [hjump]
          have hlen10 : (acc ++ (getBlockL s.blocks c).payload).length = acc.length + 10 := by
            simp [hplc]
          obtain ⟨s', hs'⟩ := ih
            { s with
              current_block_index := (getBlockL s.blocks c).header.next_block,
              current_block := (getBlockL s.blocks
                (getBlockL s.blocks c).header.next_block).header,
              current_block_position := 0 }
            ((getBlockL s.blocks c).header.next_block)
            (acc ++ (getBlockL s.blocks c).payload) n hbs hcnt hpl rfl rfl rfl hnlt
            (by simp only [List.length_append, hplc]; omega)
            (by
              show n - (acc ++ (getBlockL s.blocks c).payload).length <
                (chainBytesFrom s.blocks 128 (getBlockL s.blocks c).header.next_block
                  fuel).length
              rw [hlen10]
              simp only [List.length_append, hplc] at hlt
              omega)
          refine ⟨s', ?_⟩
          rw [hs', hlen10]
          congr 1
          rw [List.take_append_eq_append_take,
            List.take_of_length_le (by omega : (getBlockL s.blocks c).payload.length ≤ n - acc.length),
            hplc, List.append_assoc, Nat.sub_sub]
        · exfalso
          rw [chainBytesFrom_oob fuel (by omega)] at hlt
          simp only [List.append_nil, hplc] at hlt
          omega
    · rw [if_neg hrem]
      rw [List.drop_zero]
      refine ⟨{ s with
          active_block_size := 10,
          current_block_index := c,
          current_block := (getBlockL s.blocks c).header,
          current_block_position := 0 + (n - acc.length),
          current_region_position := s.current_region_position + n }, ?_⟩
      rw [List.take_append_eq_append_take, hplc,
        show n - acc.length - 10 = 0 from by omega, List.take_zero, List.append_nil]

theorem jump_to_block_eq (st : StorageState) (b : Nat) (h : b < st.active_block_count) :
    jump_to_block st b = { st with
      current_block_index := b,
      current_block := (getBlockL st.blocks b).header,
      current_block_position := 0 } := by
  unfold jump_to_block
  rw [if_neg (Nat.not_le.mpr h)]
  rfl

theorem allocate_block_found (s : StorageState) (prev j0 : Nat)
    (hlen : s.blocks.length = s.active_block_count)
    (hj0 : j0 < s.active_block_count)
    (hfree0 : (getBlockL s.blocks j0).header.in_use = false)
    (hbelow : ∀ j, j < j0 → (getBlockL s.blocks j).header.in_use = true) :
    allocate_block s prev =
      (j0, { s with
          blocks := s.blocks.set j0
            ⟨⟨true, prev, INVALID_REGION⟩, (getBlockL s.blocks j0).payload⟩,
          current_block_index := j0,
          current_block_position := 0,
          current_block := (getBlockL s.blocks j0).header }) := by
  unfold allocate_block
  exact allocate_block_loop_found s.active_block_count s 0 prev j0 hlen (Nat.zero_le _)
    hj0 hfree0 (fun j _ hj => hbelow j hj) (by omega)

theorem overwriteAt_exact {l d : List Nat} (h : l.length ≤ d.length) :
    overwriteAt l 0 d = d := by
  unfold overwriteAt
  rw [List.take_zero, List.nil_append, Nat.zero_add, List.drop_eq_nil_of_le h,
    List.append_nil]

/-- One iteration of the write loop in the tail-fresh configuration: fill
the current block `c`, allocate the first free block `k`, link `c -> k` and
jump to `k`.  The new state `t` is characterised by the listed facts. -/
theorem write_loop_step (fuel : Nat) (B : List Nat) (w : Nat) (s : StorageState)
    (c k : Nat)
    (hbs : s.active_block_size = 10)
    (hcnt : s.active_block_count = 128)
    (hblen : s.blocks.length = 128)
    (hpl : ∀ j, j < 128 → (getBlockL s.blocks j).payload.length = 10)
    (hcbi : s.current_block_index = c)
    (hpos : s.current_block_position = 0)
    (hcache : s.current_block = (getBlockL s.blocks c).header)
    (huse : (getBlockL s.blocks c).header.in_use = true)
    (hnext : (getBlockL s.blocks c).header.next_block = INVALID_REGION)
    (hck : c < k) (hklt : k < 128)
    (husedlt : ∀ j, j < k → (getBlockL s.blocks j).header.in_use = true)
    (hfree : ∀ j, j < 128 → k ≤ j → (getBlockL s.blocks j).header.in_use = false)
    (hrem : 10 ≤ 0 + B.length - w) :
    ∃ t, storage_write_loop s B w (fuel + 1) = storage_write_loop t B (w + 10) fuel ∧
      t.initialized = s.initialized ∧
      t.active_block_size = 10 ∧
      t.active_block_count = 128 ∧
      t.blocks.length = 128 ∧
      (∀ j, j < 128 → (getBlockL t.blocks j).payload.length = 10) ∧
      t.current_block_index = k ∧
      t.current_block_position = 0 ∧
      t.current_block = (getBlockL t.blocks k).header ∧
      getBlockL t.blocks k = ⟨⟨true, c, INVALID_REGION⟩, (getBlockL s.blocks k).payload⟩ ∧
      getBlockL t.blocks c = ⟨⟨(getBlockL s.blocks c).header.in_use,
        (getBlockL s.blocks c).header.previous_block, k⟩, (B.drop w).take 10⟩ ∧
      (∀ j, j ≠ c → j ≠ k → getBlockL t.blocks j = getBlockL s.blocks j) := by
  have hplc : (getBlockL s.blocks c).payload.length = 10 := hpl c (by omega)
  have hkinv : ¬ (k = INVALID_REGION) := by simp only [INVALID_REGION]; omega
  have htake10 : (List.take 10 (List.drop w B)).length = 10 := by
    rw [List.length_take, List.length_drop]; omega
  rw [storage_write_loop]
  rw [hbs, hcbi, hpos]
  rw [if_pos hrem]
  simp only [setBlock]
  rw [hcache, hnext]
  rw [if_neg (not_not_intro rfl)]
  simp only [Nat.sub_zero]
  rw [hcbi]
  have hall := allocate_block_found
    { s with
        blocks := s.blocks.set c ⟨(getBlockL s.blocks c).header,
          overwriteAt (getBlockL s.blocks c).payload 0 (List.take 10 (List.drop w B))⟩,
        current_block_index := c,
        current_block := (getBlockL s.blocks c).header }
    c k
    (by dsimp only; rw [List.length_set, hblen, hcnt])
    (by dsimp only; omega)
    (by dsimp only
        rw [getBlockL_set_ne (by omega : c ≠ k)]
        exact hfree k hklt (le_refl k))
    (by intro j hj
        dsimp only at hj ⊢
        by_cases hjc : j = c
        · subst hjc
          rw [getBlockL_set_self (by rw [hblen]; omega)]
          exact huse
        · rw [getBlockL_set_ne (fun h => hjc h.symm)]
          exact husedlt j hj)
  rw [hall]
  dsimp only
  rw [if_neg hkinv]
  rw [jump_to_block_eq _ c]
  on_goal 2 => dsimp only; omega
  dsimp only
  rw [jump_to_block_eq _ k]
  on_goal 2 => dsimp only; omega
  dsimp only
  refine ⟨_, rfl, rfl, hbs, hcnt, ?_, ?_, rfl, rfl, rfl, ?_, ?_, ?_⟩
  · dsimp only
    simp only [List.length_set]
    exact hblen
  · intro j hj
    dsimp only
    by_cases hjc : j = c
    · rw [hjc]
      rw [getBlockL_set_self (by simp only [List.length_set]; rw [hblen]; omega)]
      try dsimp only
      rw [getBlockL_set_ne (by omega : k ≠ c),
        getBlockL_set_self (by rw [hblen]; omega)]
      try dsimp only
      rw [overwriteAt_length (by rw [htake10, hplc])]
      exact hplc
    · by_cases hjk : j = k
      · rw [hjk]
        rw [getBlockL_set_ne (by omega : c ≠ k),
          getBlockL_set_self (by simp only [List.length_set]; rw [hblen]; omega)]
        try dsimp only
        try rw [getBlockL_set_ne (by omega : c ≠ k)]
        exact hpl k hklt
      · rw [getBlockL_set_ne (fun h => hjc h.symm),
          getBlockL_set_ne (fun h => hjk h.symm),
          getBlockL_set_ne (fun h => hjc h.symm)]
        exact hpl j hj
  · try dsimp only
    rw [getBlockL_set_ne (by omega : c ≠ k),
      getBlockL_set_self (by simp only [List.length_set]; rw [hblen]; omega)]
    rw [getBlockL_set_ne (by omega : c ≠ k)]
  · try dsimp only
    rw [getBlockL_set_self (by simp only [List.length_set]; rw [hblen]; omega)]
    try dsimp only
    rw [getBlockL_set_ne (by omega : k ≠ c),
      getBlockL_set_self (by rw [hblen]; omega)]
    try dsimp only
    rw [overwriteAt_exact (by rw [htake10, hplc])]
  · intro j hjc hjk
    try dsimp only
    rw [getBlockL_set_ne (fun h => hjc h.symm),
      getBlockL_set_ne (fun h => hjk h.symm),
      getBlockL_set_ne (fun h => hjc h.symm)]

theorem write_loop_fresh : ∀ (fuel : Nat) (B : List Nat) (w : Nat) (s : StorageState)
    (c k : Nat),
    s.initialized = true →
    s.active_block_size = 10 →
    s.active_block_count = 128 →
    s.blocks.length = 128 →
    (∀ j, j < 128 → (getBlockL s.blocks j).payload.length = 10) →
    s.current_block_index = c →
    s.current_block_position = 0 →
    s.current_block = (getBlockL s.blocks c).header →
    (getBlockL s.blocks c).header.in_use = true →
    (getBlockL s.blocks c).header.next_block = INVALID_REGION →
    c < k → k ≤ 128 →
    (∀ j, j < k → (getBlockL s.blocks j).header.in_use = true) →
    (∀ j, j < 128 → k ≤ j → (getBlockL s.blocks j).header.in_use = false) →
    w ≤ B.length →
    (B.length - w) / 10 ≤ 128 - k →
    (B.length - w) / 10 < fuel →
    ∃ s' pad,
      storage_write_loop s B w fuel = (B.length, s') ∧
      pad ≠ [] ∧
      (∀ F, (B.length - w) / 10 < F →
        chainBytesFrom s'.blocks 128 c F = B.drop w ++ pad) ∧
      (∀ F j, j ∈ chainBlocksFrom s'.blocks 128 c F → j = c ∨ (k ≤ j ∧ j < 128)) ∧
      (∀ j, j < k → j ≠ c → getBlockL s'.blocks j = getBlockL s.blocks j) ∧
      s'.initialized = true ∧
      s'.active_block_size = 10 ∧
      s'.active_block_count = 128 ∧
      s'.blocks.length = 128 ∧
      (∀ j, j < 128 → (getBlockL s'.blocks j).payload.length = 10) := by
  intro fuel
  induction fuel with
  | zero => intro B w s c k _ _ _ _ _ _ _ _ _ _ _ _ _ _ _ _ hfuel; omega
  | succ fuel ih =>
    intro B w s c k hinit hbs hcnt hblen hpl hcbi hpos hcache huse hnext hck hk128
      husedlt hfree hw hcap hfuel
    have hplc : (getBlockL s.blocks c).payload.length = 10 := hpl c (by omega)
    by_cases hrem : 10 ≤ 0 + B.length - w
    · -- at least one more block boundary: one step, then the inductive hypothesis
      have hklt : k < 128 := by omega
      obtain ⟨t, hstep, htin, htbs, htcnt, htblen, htpl, htcbi, htpos, htcache,
        htk, htc, htother⟩ :=
        write_loop_step fuel B w s c k hbs hcnt hblen hpl hcbi hpos hcache huse hnext
          hck hklt husedlt hfree hrem
      have hc' : ∀ bl, (∀ j, j < k + 1 → j ≠ k → getBlockL bl j = getBlockL t.blocks j) →
          getBlockL bl c = ⟨⟨(getBlockL s.blocks c).header.in_use,
            (getBlockL s.blocks c).header.previous_block, k⟩, (B.drop w).take 10⟩ :=
        fun bl h => (h c (by omega) (by omega)).trans htc
      obtain ⟨s', pad, heq, hpad, hchain, hmem, hunch, hin', hbs', hcnt', hblen', hpl'⟩ :=
        ih B (w + 10) t k (k + 1)
          (htin.trans hinit) htbs htcnt htblen htpl htcbi htpos htcache
          (by rw [htk]) (by rw [htk])
          (by omega) (by omega)
          (by intro j hj
              by_cases hjk : j = k
              · subst hjk; rw [htk]
              · by_cases hjc : j = c
                · subst hjc
                  rw [htc]
                  exact huse
                · rw [htother j hjc hjk]
                  exact husedlt j (by omega))
          (by intro j hj1 hj2
              rw [htother j (by omega) (by omega)]
              exact hfree j hj1 (by omega))
          (by omega) (by omega) (by omega)
      have hsc : getBlockL s'.blocks c = ⟨⟨(getBlockL s.blocks c).header.in_use,
          (getBlockL s.blocks c).header.previous_block, k⟩, (B.drop w).take 10⟩ :=
        hc' s'.blocks hunch
      refine ⟨s', pad, ?_, hpad, ?_, ?_, ?_, hin', hbs', hcnt', hblen', hpl'⟩
      · rw [hstep]; exact heq
      · intro F hF
        cases F with
        | zero => omega
        | succ F =>
          rw [chainBytesFrom_succ _ (show c < 128 by omega)]
          rw [hsc]
          dsimp only
          rw [hchain F (by omega)]
          rw [← List.append_assoc]
          congr 1
          rw [show B.drop (w + 10) = (B.drop w).drop 10 from by
            rw [List.drop_drop]]
          exact List.take_append_drop 10 (B.drop w)
      · intro F j hj
        cases F with
        | zero => simp [chainBlocksFrom] at hj
        | succ F =>
          rw [chainBlocksFrom_succ _ (show c < 128 by omega)] at hj
          rw [hsc] at hj
          dsimp only at hj
          rcases List.mem_cons.mp hj with h | h
          · exact Or.inl h
          · rcases hmem F j h with h' | ⟨h1, h2⟩
            · subst h'
              exact Or.inr ⟨le_refl _, by omega⟩
            · exact Or.inr ⟨by omega, h2⟩
      · intro j hjk hjc
        rw [hunch j (by omega) (by omega), htother j hjc (by omega)]
    · -- the remaining bytes fit in the current block
      unfold storage_write_loop
      rw [hbs, hcbi, hpos]
      rw [if_neg hrem]
      refine ⟨{ s with
          blocks := s.blocks.set c ⟨(getBlockL s.blocks c).header,
            overwriteAt (getBlockL s.blocks c).payload 0 ((B.drop w).take (B.length - w))⟩,
          current_block_position := s.current_block_position + (B.length - w),
          current_region_position := s.current_region_position + B.length },
        (getBlockL s.blocks c).payload.drop (B.length - w), ?_, ?_, ?_, ?_, ?_, ?_, ?_, ?_, ?_, ?_⟩
      · rfl
      · rw [← List.length_pos]
        rw [List.length_drop, hplc]
        omega
      · intro F hF
        cases F with
        | zero => omega
        | succ F =>
          rw [chainBytesFrom_succ _ (show c < 128 by omega)]
          rw [getBlockL_set_self (by rw [hblen]; omega)]
          dsimp only
          rw [hnext, chainBytesFrom_oob _ (by norm_num [INVALID_REGION])]
          rw [List.append_nil]
          unfold overwriteAt
          rw [List.take_zero, List.nil_append, Nat.zero_add]
          rw [List.take_of_length_le (by rw [List.length_drop])]
          rw [List.length_drop]
      · intro F j hj
        cases F with
        | zero => simp [chainBlocksFrom] at hj
        | succ F =>
          rw [chainBlocksFrom_succ _ (show c < 128 by omega)] at hj
          rw [getBlockL_set_self (by rw [hblen]; omega)] at hj
          dsimp only at hj
          rw [hnext, chainBlocksFrom_oob _ (by norm_num [INVALID_REGION])] at hj
          simp at hj
          exact Or.inl hj
      · intro j hjk hjc
        exact getBlockL_set_ne (fun h => hjc h.symm)
      · exact hinit
      · exact hbs
      · exact hcnt
      · rw [List.length_set]; exact hblen
      · intro j hj
        by_cases hjc : j = c
        · subst hjc
          rw [getBlockL_set_self (by rw [hblen]; omega)]
          dsimp only
          rw [overwriteAt_length]
          · exact hplc
          · rw [List.length_take, List.length_drop, hplc]
            omega
        · rw [getBlockL_set_ne (fun h => hjc h.symm)]
          exact hpl j hj

theorem getDescriptor_congr2 {fs1 fs2 : FSState} (h : fs1.descriptors = fs2.descriptors)
    (fd : Int) : getDescriptor fs1 fd = getDescriptor fs2 fd := by
  unfold getDescriptor
  rw [h]

/-- C3: writing a byte sequence `B` of length at most
`block_size * block_count * 0.9 = 10 * 128 * 0.9 = 1152` to a freshly
created file on a freshly formatted default backing file, seeking back to
offset 0 and reading `B.length` bytes yields exactly `B`. -/
theorem c3_round_trip (B : List Nat) (hlen : B.length ≤ 1152)
    (hbytes : ∀ b ∈ B, b < 256) :
    c3_scenario B = B := by
  have hopen : open_virtual (initialVFS DEFAULT_BLOCK_SIZE DEFAULT_BLOCK_COUNT) pathF O_CREAT
      = (0, c3_s1) := by decide
  have hjump1 : jump_to_file_if_needed c3_s1 0 = c3_s1r := by decide
  have hfd1 : getDescriptor c3_s1 0 = some ⟨1, 2, 0, 0⟩ := by decide
  obtain ⟨s', pad, heq, hpad, hchain, hmem, hunch, hin', hbs', hcnt', hblen', hpl'⟩ :=
    write_loop_fresh 129 B 0 c3_s1r.storage 1 4
      rfl rfl rfl (by decide) (by decide) rfl rfl (by decide) (by decide) (by decide)
      (by omega) (by omega) (by decide) (by decide)
      (Nat.zero_le _) (by omega) (by omega)
  have hwrite : storage_write_in_region c3_s1r.storage B = (B.length, s') := by
    have hboot : storage_write_in_region c3_s1r.storage B =
        storage_write_loop c3_s1r.storage B 0 129 := by
      unfold storage_write_in_region
      rfl
    rw [hboot, heq]
  have hw2 : write_virtual c3_s1 0 B = (B.length,
      update_virtual_file_metadata
        (setDescriptor (setDescriptor { c3_s1r with storage := s' } 0
            (some ⟨1, 2, 0, 0 + B.length⟩)) 0
          (some ⟨1, 2, 0 + B.length + 1, 0 + B.length⟩))
        2 (0 + B.length + 1)) := by
    unfold write_virtual
    rw [hfd1]
    dsimp only
    rw [hjump1, hwrite]
    dsimp only
    rw [show ((0 : Nat) + B.length) % 2 ^ 64 = 0 + B.length from
      Nat.mod_eq_of_lt (by omega)]
    rw [show ((0 : Nat) + B.length + 1) % 2 ^ 64 = 0 + B.length + 1 from
      Nat.mod_eq_of_lt (by omega)]
    rw [if_pos (Nat.zero_le _)]
  have h2lt : (2 : Nat) < s'.active_block_count := by rw [hcnt']; omega
  have hmeta : update_virtual_file_metadata
      (setDescriptor (setDescriptor { c3_s1r with storage := s' } 0
          (some ⟨1, 2, 0, 0 + B.length⟩)) 0
        (some ⟨1, 2, 0 + B.length + 1, 0 + B.length⟩))
      2 (0 + B.length + 1) =
      { setDescriptor (setDescriptor { c3_s1r with storage := s' } 0
          (some ⟨1, 2, 0, 0 + B.length⟩)) 0
        (some ⟨1, 2, 0 + B.length + 1, 0 + B.length⟩) with
        storage := { s' with
          blocks := s'.blocks.set 2 ⟨(getBlockL s'.blocks 2).header,
            overwriteAt (getBlockL s'.blocks 2).payload 0 (u64Bytes (0 + B.length + 1))⟩,
          current_block_index := 2,
          current_block := (getBlockL s'.blocks 2).header,
          current_block_position := 0 + (u64Bytes (0 + B.length + 1)).length,
          current_region_position := 0 + (u64Bytes (0 + B.length + 1)).length },
        last_used_descriptor := -1 } := by
    unfold update_virtual_file_metadata
    simp only [setDescriptor]
    try dsimp only
    rw [jump_region_eq s' 2 hin' h2lt]
    try dsimp only
    rw [storage_write_small]
    on_goal 2 =>
      show (0 : Nat) + 8 < s'.active_block_size
      rw [hbs']
      omega
    try dsimp only
    exact hin'
  have readlemma : ∀ (st : StorageState),
      st.initialized = true → st.active_block_size = 10 → st.active_block_count = 128 →
      (∀ j, j < 128 → (getBlockL st.blocks j).payload.length = 10) →
      st.current_block_index = 1 → st.current_block_position = 0 →
      st.current_block = (getBlockL st.blocks 1).header →
      chainBytesFrom st.blocks 128 1 129 = B ++ pad →
      (storage_read_in_region st B.length).1 = B := by
    intro st h1 h2 h3 h4 h5 h6 h7 h8
    have hboot : storage_read_in_region st B.length =
        storage_read_loop st B.length [] 129 := by
      unfold storage_read_in_region
      rw [h1, h3]
      rfl
    obtain ⟨s2, hs2⟩ := read_loop_chain 129 st 1 [] B.length h2 h3 h4 h5 h6 h7
      (by omega) (Nat.zero_le _)
      (by rw [h8]
          simp only [List.length_append, List.length_nil]
          have := List.length_pos.mpr hpad
          omega)
    rw [hboot, hs2]
    dsimp only
    rw [List.nil_append, List.length_nil, Nat.sub_zero, h8, List.take_left]
  have tail : ∀ (fs : FSState) (f : virtual_file),
      getDescriptor fs 0 = some f →
      fs.last_used_descriptor = -1 →
      f.content_region = 1 →
      f.length = B.length + 1 →
      fs.storage.initialized = true →
      fs.storage.active_block_size = 10 →
      fs.storage.active_block_count = 128 →
      (∀ j, j < 128 → (getBlockL fs.storage.blocks j).payload.length = 10) →
      chainBytesFrom fs.storage.blocks 128 1 129 = B ++ pad →
      (read_virtual (seek_virtual fs 0 0 SEEK_SET).2 0 B.length).1 = B := by
    intro fs f hfd hlu hcr hflen hsin hsbs hscnt hspl hsch
    have hseek : seek_virtual fs 0 0 SEEK_SET =
        (0, setDescriptor fs 0 (some { f with reader_position := 0 })) := by
      unfold seek_virtual
      rw [hfd]
      dsimp only
      rw [if_pos (Or.inl rfl)]
      rw [if_pos rfl]
      rw [if_neg (show ¬ ((0 : Int) < 0) from by decide)]
      rw [if_neg (show ¬ ((f.length : Int) < 0) from by omega)]
      rfl
    rw [hseek]
    dsimp only
    have hfd3 : getDescriptor (setDescriptor fs 0 (some { f with reader_position := 0 })) 0 =
        some { f with reader_position := 0 } := getDescriptor_set_self _ hfd
    unfold read_virtual
    rw [hfd3]
    dsimp only
    rw [jump_to_file_fresh _ _ hfd3 hlu rfl hsin
      (show f.content_region < fs.storage.active_block_count from by
        rw [hcr, hscnt]; omega)]
    dsimp only
    rw [if_neg (show ¬ (f.length < 0 + B.length) from by omega)]
    refine readlemma _ hsin hsbs hscnt hspl ?_ rfl ?_ ?_
    · show f.content_region = 1
      exact hcr
    · show (getBlockL fs.storage.blocks f.content_region).header =
        (getBlockL fs.storage.blocks 1).header
      rw [hcr]
    · exact hsch
  unfold c3_scenario
  rw [hopen]
  dsimp only
  rw [hw2]
  dsimp only
  rw [hmeta]
  refine tail _ ⟨1, 2, 0 + B.length + 1, 0 + B.length⟩ ?_ ?_ ?_ ?_ ?_ ?_ ?_ ?_ ?_
  · exact getDescriptor_set_self _ (getDescriptor_set_self _
      ((getDescriptor_congr2 rfl 0).trans hfd1))
  · rfl
  · rfl
  · show 0 + B.length + 1 = B.length + 1
    omega
  · exact hin'
  · exact hbs'
  · exact hcnt'
  · intro j hj
    show (getBlockL (s'.blocks.set 2 ⟨(getBlockL s'.blocks 2).header,
      overwriteAt (getBlockL s'.blocks 2).payload 0
        (u64Bytes (0 + B.length + 1))⟩) j).payload.length = 10
    by_cases hj2 : j = 2
    · rw [hj2, getBlockL_set_self (by rw [hblen']; omega)]
      dsimp only
      rw [overwriteAt_length (by
        show (0 : Nat) + 8 ≤ (getBlockL s'.blocks 2).payload.length
        rw [hpl' 2 (by omega)]
        omega)]
      exact hpl' 2 (by omega)
    · rw [getBlockL_set_ne (fun h => hj2 h.symm)]
      exact hpl' j hj
  · show chainBytesFrom (s'.blocks.set 2 ⟨(getBlockL s'.blocks 2).header,
      overwriteAt (getBlockL s'.blocks 2).payload 0
        (u64Bytes (0 + B.length + 1))⟩) 128 1 129 = B ++ pad
    rw [chainBytes_congr 129 s'.blocks _ 128 1 (fun j hj => getBlockL_set_ne
        (show (2 : Nat) ≠ j from by
          rcases hmem 129 j hj with h | ⟨h1, h2⟩ <;> omega))]
    rw [hchain 129 (by omega)]
    rw [List.drop_zero]

/-- Witness for C3 at the concrete byte sequence `[1, 2, 3]`. -/
theorem c3_round_trip_witness :
    ([1, 2, 3] : List Nat).length ≤ 1152 ∧ (∀ b ∈ ([1, 2, 3] : List Nat), b < 256) ∧
    c3_scenario [1, 2, 3] = [1, 2, 3] :=
  ⟨by decide, by decide, c3_round_trip [1, 2, 3] (by decide) (by decide)⟩


/-- C9: the claim says every public operation leaves every live descriptor
with `0 ≤ cursor ≤ length`.  The code violates it: `write_virtual` adds the
full requested count to the `size_t` cursor without checking how many bytes
the engine accepted, and stores `length = cursor + 1`, both mod `2 ^ 64`.
A single `write(fd, buf, 2 ^ 64 - 1)` on the freshly created file of
`c3_s1` (a legal call: the engine reads only the bytes it can place) drives
the cursor to `2 ^ 64 - 1` and wraps the length to `0`, leaving the live
descriptor 0 with cursor greater than length. -/
theorem c9_invariant_violation :
    getDescriptor (write_virtual c3_s1 0 (List.replicate (2 ^ 64 - 1) 0)).2 0 =
      some ⟨1, 2, 0, 2 ^ 64 - 1⟩ ∧
    ¬ DescInv (write_virtual c3_s1 0 (List.replicate (2 ^ 64 - 1) 0)).2 := by
  have key : ∀ (buf : List Nat), buf.length = 2 ^ 64 - 1 →
      getDescriptor (write_virtual c3_s1 0 buf).2 0 = some ⟨1, 2, 0, 2 ^ 64 - 1⟩ := by
    intro buf hbuf
    have hfd1 : getDescriptor c3_s1 0 = some ⟨1, 2, 0, 0⟩ := by decide
    have hjump1 : jump_to_file_if_needed c3_s1 0 = c3_s1r := by decide
    have hw2 : write_virtual c3_s1 0 buf =
        (2 ^ 64 - 1, update_virtual_file_metadata
          (setDescriptor (setDescriptor { c3_s1r with storage :=
              (storage_write_in_region c3_s1r.storage buf).2 } 0
              (some ⟨1, 2, 0, 2 ^ 64 - 1⟩)) 0
            (some ⟨1, 2, 0, 2 ^ 64 - 1⟩))
          2 0) := by
      unfold write_virtual
      rw [hfd1]
      dsimp only
      rw [hjump1]
      rw [hbuf]
      rw [show ((0 : Nat) + (2 ^ 64 - 1)) % 2 ^ 64 = 2 ^ 64 - 1 from
        Nat.mod_eq_of_lt (by omega)]
      rw [if_pos (Nat.zero_le _)]
      rw [show ((2 ^ 64 - 1 : Nat) + 1) % 2 ^ 64 = 0 from by omega]
    rw [hw2]
    exact (getDescriptor_congr2 rfl 0).trans (getDescriptor_set_self _
      (getDescriptor_set_self _ ((getDescriptor_congr2 rfl 0).trans hfd1)))
  have hget := key (List.replicate (2 ^ 64 - 1) 0) (by rw [List.length_replicate])
  refine ⟨hget, fun h => ?_⟩
  have hg2 : (write_virtual c3_s1 0 (List.replicate (2 ^ 64 - 1) 0)).2.descriptors.getD 0
      none = some ⟨1, 2, 0, 2 ^ 64 - 1⟩ := by
    unfold getDescriptor at hget
    rw [if_neg (by decide)] at hget
    exact hget
  exact absurd (h 0 ⟨1, 2, 0, 2 ^ 64 - 1⟩ hg2)
    (by decide : ¬ ((2 ^ 64 - 1 : Nat) ≤ 0))

end VFS
